import Mathlib

/-!
Shallow embedding of the Car_rental backend core
(`backend/app/api/routes/{bookings,auctions,admin}.py` and
`backend/app/core/{crud,config}.py`).

Entities are records over exact rationals (prices, trust scores and
timestamps are Python floats / datetimes in the source; we model them as
`Rat`, timestamps as seconds).  The Mongo database is a record of lists;
`generate_id` (uuid4) is modelled by a monotone counter `nextId`.  Each
FastAPI handler becomes a pure function `DB → ... → Except Err DB`; an
HTTP error response is an `Err` value and leaves the database unchanged,
exactly as the Python handlers raise before any write on those paths.
-/

namespace CarRental

/-- Booking status strings used by the source. -/
inductive BStatus
  | pending | competing | confirmed | rejected | cancelled | completed
  | lostAuction | active
  deriving Repr, DecidableEq

/-- Auction status strings used by the source. -/
inductive AStatus
  | active | closed | cancelled
  deriving Repr, DecidableEq

/-- Ride status strings used by the source. -/
inductive RStatus
  | active | completed
  deriving Repr, DecidableEq

/-- A user document (`crud.create_user`), restricted to the fields the core
reads: counters, rating, trust score and the blocked flag. -/
structure User where
  id : Nat
  totalRides : Nat
  avgRating : Rat
  damageCount : Nat
  rashCount : Nat
  trustScore : Rat
  isBlocked : Bool
  deriving Repr, DecidableEq

/-- A car document (`crud.create_car`), restricted to the active flag. -/
structure Car where
  id : Nat
  isActive : Bool
  deriving Repr, DecidableEq

/-- A booking document (`crud.create_booking`). -/
structure Booking where
  id : Nat
  userId : Nat
  carId : Nat
  startTime : Rat
  endTime : Rat
  offerPrice : Rat
  status : BStatus
  deriving Repr, DecidableEq

/-- An auction document (`crud.create_auction`). -/
structure Auction where
  id : Nat
  carId : Nat
  startTime : Rat
  endTime : Rat
  auctionEnd : Rat
  status : AStatus
  winnerId : Option Nat
  deriving Repr, DecidableEq

/-- A bid document (`crud.create_bid`). -/
structure Bid where
  id : Nat
  auctionId : Nat
  userId : Nat
  bookingId : Nat
  offerPrice : Rat
  trustSnapshot : Rat
  finalScore : Option Rat
  deriving Repr, DecidableEq

/-- A ride document (`crud.create_ride`). -/
structure Ride where
  id : Nat
  bookingId : Nat
  status : RStatus
  deriving Repr, DecidableEq

/-- A rating document (`crud.create_rating`). -/
structure RatingRec where
  id : Nat
  rideId : Nat
  drivingRating : Int
  damageFlag : Bool
  rashFlag : Bool
  deriving Repr, DecidableEq

/-- The MongoDB database: one list per collection plus the id counter. -/
structure DB where
  users : List User
  cars : List Car
  bookings : List Booking
  auctions : List Auction
  bids : List Bid
  rides : List Ride
  ratings : List RatingRec
  nextId : Nat
  deriving Repr, DecidableEq

/-- Rating input accepted by `admin.rate_ride` (`RatingCreate`). -/
structure RatingInput where
  drivingRating : Int
  damageFlag : Bool
  rashFlag : Bool
  deriving Repr, DecidableEq

/-- Error responses raised by the handlers (HTTP 4xx bodies). -/
inductive Err
  | blocked            -- auth dependency: "Your account has been blocked"
  | notFound
  | forbidden
  | invalidInterval    -- "End time must be after start time"
  | notEligible        -- "Your account is not eligible for bookings at this time."
  | resourceUnavailable
  | slotUnavailable    -- "Car is already booked for this time period."
  | auctionNotActive
  | noExistingStake    -- "You don't have an active booking in this auction"
  | bidMustIncrease    -- "New bid must be higher than your current bid"
  | invalidState
  | alreadyStarted
  | alreadyRated
  | invalidOffer       -- FastAPI validation `Query(..., gt=0)`
  deriving Repr, DecidableEq

instance {α β : Type} [DecidableEq α] [DecidableEq β] : DecidableEq (Except α β) := fun a b =>
  match a, b with
  | Except.ok x, Except.ok y =>
      if h : x = y then isTrue (by rw [h]) else isFalse (fun hc => h (by injection hc))
  | Except.error x, Except.error y =>
      if h : x = y then isTrue (by rw [h]) else isFalse (fun hc => h (by injection hc))
  | Except.ok _, Except.error _ => isFalse (fun hc => by cases hc)
  | Except.error _, Except.ok _ => isFalse (fun hc => by cases hc)

/-- `settings.AUTO_REJECT_THRESHOLD` (`config.py`). -/
def AUTO_REJECT_THRESHOLD : Rat := 10

/-- `settings.LATE_CANCEL_PENALTY` (`config.py`). -/
def LATE_CANCEL_PENALTY : Rat := 5

/-- `settings.AUCTION_DURATION_HOURS` (`config.py`), in seconds. -/
def AUCTION_DURATION_SECONDS : Rat := 24 * 3600

/-! ## CRUD layer (`crud.py`) -/

/-- `crud.get_user_by_id`. -/
def getUser (db : DB) (uid : Nat) : Option User :=
  db.users.find? (fun u => decide (u.id = uid))

/-- `crud.get_car_by_id`. -/
def getCar (db : DB) (cid : Nat) : Option Car :=
  db.cars.find? (fun c => decide (c.id = cid))

/-- `crud.get_booking_by_id`. -/
def getBooking (db : DB) (bid : Nat) : Option Booking :=
  db.bookings.find? (fun b => decide (b.id = bid))

/-- `crud.get_auction_by_id`. -/
def getAuction (db : DB) (aid : Nat) : Option Auction :=
  db.auctions.find? (fun a => decide (a.id = aid))

/-- `crud.get_bid_by_user_auction`. -/
def getBid (db : DB) (uid aid : Nat) : Option Bid :=
  db.bids.find? (fun b => decide (b.userId = uid ∧ b.auctionId = aid))

/-- `crud.get_ride_by_id`. -/
def getRide (db : DB) (rid : Nat) : Option Ride :=
  db.rides.find? (fun r => decide (r.id = rid))

/-- `crud.get_ride_by_booking`. -/
def getRideByBooking (db : DB) (bid : Nat) : Option Ride :=
  db.rides.find? (fun r => decide (r.bookingId = bid))

/-- `crud.get_rating_by_ride`. -/
def getRatingByRide (db : DB) (rid : Nat) : Option RatingRec :=
  db.ratings.find? (fun r => decide (r.rideId = rid))

/-- `crud.update_booking` with `{"status": st}`: Mongo `update_one` on the
`id` filter touches every matching document of our list model the same
way (with unique ids, exactly one). -/
def setBookingStatus (db : DB) (i : Nat) (st : BStatus) : DB :=
  { db with bookings := db.bookings.map (fun b => if b.id = i then { b with status := st } else b) }

/-- `crud.update_booking` with `{"offer_price": p}`. -/
def setBookingOffer (db : DB) (i : Nat) (p : Rat) : DB :=
  { db with bookings := db.bookings.map (fun b => if b.id = i then { b with offerPrice := p } else b) }

/-- `crud.update_user` with `{"trust_score": t}`. -/
def setUserTrust (db : DB) (i : Nat) (t : Rat) : DB :=
  { db with users := db.users.map (fun u => if u.id = i then { u with trustScore := t } else u) }

/-- `crud.update_user` with the five counters written by `rate_ride`. -/
def setUserStats (db : DB) (i : Nat) (rides : Nat) (avg : Rat)
    (damage rash : Nat) (trust : Rat) : DB :=
  { db with users := db.users.map (fun u =>
      if u.id = i then
        { u with totalRides := rides, avgRating := avg,
                 damageCount := damage, rashCount := rash, trustScore := trust }
      else u) }

/-- `crud.update_auction` with `{"status": st}`. -/
def setAuctionStatus (db : DB) (i : Nat) (st : AStatus) : DB :=
  { db with auctions := db.auctions.map (fun a => if a.id = i then { a with status := st } else a) }

/-- `crud.update_auction` with `{"status": "closed", "winner_id": w}`. -/
def setAuctionClosed (db : DB) (i : Nat) (w : Nat) : DB :=
  { db with auctions := db.auctions.map (fun a =>
      if a.id = i then { a with status := AStatus.closed, winnerId := some w } else a) }

/-- `crud.update_bid` with `{"offer_price": p}`. -/
def setBidOffer (db : DB) (i : Nat) (p : Rat) : DB :=
  { db with bids := db.bids.map (fun b => if b.id = i then { b with offerPrice := p } else b) }

/-- `crud.update_bid` with `{"final_score": s}`. -/
def setBidFinal (db : DB) (i : Nat) (s : Rat) : DB :=
  { db with bids := db.bids.map (fun b => if b.id = i then { b with finalScore := some s } else b) }

/-- `crud.update_ride` with `{"status": st}` (the end timestamp is dropped
by the model). -/
def setRideStatus (db : DB) (i : Nat) (st : RStatus) : DB :=
  { db with rides := db.rides.map (fun r => if r.id = i then { r with status := st } else r) }

/-- The Mongo overlap condition used by `get_conflicting_bookings` and
`find_active_auction_for_car`: `start_time < end AND end_time > start`,
i.e. half-open interval overlap. -/
def overlapQ (s1 e1 s2 e2 : Rat) : Prop := s1 < e2 ∧ s2 < e1

instance (s1 e1 s2 e2 : Rat) : Decidable (overlapQ s1 e1 s2 e2) := by
  unfold overlapQ; infer_instance

/-- `crud.get_conflicting_bookings`: bookings of the car in status
`pending`/`competing` whose interval overlaps, minus the excluded id. -/
def get_conflicting_bookings (db : DB) (carId : Nat) (s e : Rat)
    (excludeId : Option Nat) : List Booking :=
  db.bookings.filter (fun b => decide
    (b.carId = carId ∧ (b.status = BStatus.pending ∨ b.status = BStatus.competing) ∧
     overlapQ b.startTime b.endTime s e ∧ ∀ i, excludeId = some i → b.id ≠ i))

/-- `crud.find_active_auction_for_car`. -/
def find_active_auction_for_car (db : DB) (carId : Nat) (s e : Rat) : Option Auction :=
  db.auctions.find? (fun a => decide
    (a.carId = carId ∧ a.status = AStatus.active ∧ overlapQ a.startTime a.endTime s e))

/-- Insertion step of the `sort("offer_price", -1)` in `crud.get_auction_bids`. -/
def insOffer (b : Bid) : List Bid → List Bid
  | [] => [b]
  | c :: cs => if c.offerPrice ≤ b.offerPrice then b :: c :: cs else c :: insOffer b cs

/-- Descending sort by offer price (`crud.get_auction_bids`). -/
def sortOfferDesc : List Bid → List Bid
  | [] => []
  | b :: bs => insOffer b (sortOfferDesc bs)

/-- `crud.get_auction_bids`. -/
def get_auction_bids (db : DB) (aid : Nat) : List Bid :=
  sortOfferDesc (db.bids.filter (fun b => decide (b.auctionId = aid)))

/-- `crud.create_booking` (status starts `pending`). -/
def addBooking (db : DB) (uid carId : Nat) (s e offer : Rat) : DB :=
  { db with
    bookings := db.bookings ++
      [{ id := db.nextId, userId := uid, carId := carId, startTime := s,
         endTime := e, offerPrice := offer, status := BStatus.pending }],
    nextId := db.nextId + 1 }

/-- `crud.create_auction` (status starts `active`, no winner). -/
def addAuction (db : DB) (carId : Nat) (s e aend : Rat) : DB :=
  { db with
    auctions := db.auctions ++
      [{ id := db.nextId, carId := carId, startTime := s, endTime := e,
         auctionEnd := aend, status := AStatus.active, winnerId := none }],
    nextId := db.nextId + 1 }

/-- `crud.create_bid` (no final score yet). -/
def addBid (db : DB) (aid uid bookingId : Nat) (offer snap : Rat) : DB :=
  { db with
    bids := db.bids ++
      [{ id := db.nextId, auctionId := aid, userId := uid, bookingId := bookingId,
         offerPrice := offer, trustSnapshot := snap, finalScore := none }],
    nextId := db.nextId + 1 }

/-- `crud.create_ride` (status starts `active`). -/
def addRide (db : DB) (bookingId : Nat) : DB :=
  { db with
    rides := db.rides ++ [{ id := db.nextId, bookingId := bookingId, status := RStatus.active }],
    nextId := db.nextId + 1 }

/-- `crud.create_rating`. -/
def addRating (db : DB) (rideId : Nat) (r : RatingInput) : DB :=
  { db with
    ratings := db.ratings ++
      [{ id := db.nextId, rideId := rideId, drivingRating := r.drivingRating,
         damageFlag := r.damageFlag, rashFlag := r.rashFlag }],
    nextId := db.nextId + 1 }

/-! ## Handlers -/

/-- Per-conflict body of the escalation loop in `bookings.request_booking`:
if the conflicting booking's user has no bid in the auction yet, create a
bid snapshotting that user's current trust score and mark the booking
`competing`. -/
def escalateStep (aid : Nat) (db : DB) (c : Booking) : DB :=
  match getBid db c.userId aid with
  | some _ => db
  | none =>
    let snap := ((getUser db c.userId).map User.trustScore).getD 50
    setBookingStatus (addBid db aid c.userId c.id c.offerPrice snap) c.id BStatus.competing

/-- `bookings.request_booking`.  `now` is `datetime.utcnow()` in seconds.
The authenticated caller is looked up by id; `auth.get_current_user`
rejects blocked users before the handler body runs. -/
def request_booking (db : DB) (uid carId : Nat) (s e offer now : Rat) : Except Err DB :=
  match getUser db uid with
  | none => Except.error Err.notFound
  | some u =>
    if u.isBlocked then Except.error Err.blocked
    else if e ≤ s then Except.error Err.invalidInterval
    else if u.trustScore < AUTO_REJECT_THRESHOLD ∨ u.isBlocked then Except.error Err.notEligible
    else match getCar db carId with
      | none => Except.error Err.resourceUnavailable
      | some car =>
        if ¬ car.isActive then Except.error Err.resourceUnavailable
        else if db.bookings.any (fun b => decide
            (b.status = BStatus.confirmed ∧ b.carId = carId ∧
             overlapQ b.startTime b.endTime s e)) then
          Except.error Err.slotUnavailable
        else
          let newId := db.nextId
          let db1 := addBooking db uid carId s e offer
          let conflicts := get_conflicting_bookings db1 carId s e (some newId)
          if conflicts.isEmpty then Except.ok db1
          else
            let p := match find_active_auction_for_car db1 carId s e with
              | some a => (db1, a.id)
              | none => (addAuction db1 carId s e (now + AUCTION_DURATION_SECONDS), db1.nextId)
            let db2 := p.1
            let aid := p.2
            let db3 := conflicts.foldl (escalateStep aid) db2
            let db4 := match getBid db3 uid aid with
              | some _ => db3
              | none => addBid db3 aid uid newId offer u.trustScore
            Except.ok (setBookingStatus db4 newId BStatus.competing)

/-- `admin.approve_booking`. -/
def approve_booking (db : DB) (bookingId : Nat) : Except Err DB :=
  match getBooking db bookingId with
  | none => Except.error Err.notFound
  | some bk =>
    if bk.status = BStatus.pending then Except.ok (setBookingStatus db bookingId BStatus.confirmed)
    else Except.error Err.invalidState

/-- `admin.reject_booking`. -/
def reject_booking (db : DB) (bookingId : Nat) : Except Err DB :=
  match getBooking db bookingId with
  | none => Except.error Err.notFound
  | some bk =>
    if bk.status = BStatus.pending ∨ bk.status = BStatus.competing then
      Except.ok (setBookingStatus db bookingId BStatus.rejected)
    else Except.error Err.invalidState

/-- `bookings.cancel_booking`.  `now` is `datetime.utcnow()` in seconds;
the late penalty applies when strictly less than 24 hours remain before
the start and the booking was `confirmed`. -/
def cancel_booking (db : DB) (uid bookingId : Nat) (now : Rat) : Except Err DB :=
  match getUser db uid with
  | none => Except.error Err.notFound
  | some u =>
    if u.isBlocked then Except.error Err.blocked
    else match getBooking db bookingId with
      | none => Except.error Err.notFound
      | some bk =>
        if bk.userId ≠ uid then Except.error Err.forbidden
        else if ¬ (bk.status = BStatus.pending ∨ bk.status = BStatus.competing ∨
                   bk.status = BStatus.confirmed) then
          Except.error Err.invalidState
        else
          let db1 :=
            if (bk.startTime - now) / 3600 < 24 ∧ bk.status = BStatus.confirmed then
              setUserTrust db uid (max 0 (u.trustScore - LATE_CANCEL_PENALTY))
            else db
          Except.ok (setBookingStatus db1 bookingId BStatus.cancelled)

/-- `auctions.place_bid`. -/
def place_bid (db : DB) (uid aid : Nat) (offer : Rat) : Except Err DB :=
  match getUser db uid with
  | none => Except.error Err.notFound
  | some u =>
    if u.isBlocked then Except.error Err.blocked
    else if ¬ 0 < offer then Except.error Err.invalidOffer
    else match getAuction db aid with
      | none => Except.error Err.notFound
      | some a =>
        if a.status ≠ AStatus.active then Except.error Err.auctionNotActive
        else match getBid db uid aid with
          | none => Except.error Err.noExistingStake
          | some bid =>
            if offer ≤ bid.offerPrice then Except.error Err.bidMustIncrease
            else Except.ok (setBookingOffer (setBidOffer db bid.id offer) bid.bookingId offer)

/-- Final score formula of `admin.close_auction`:
`offer * (1 + trust_snapshot / 100)`. -/
def fscore (b : Bid) : Rat := b.offerPrice * (1 + b.trustSnapshot / 100)

/-- Score key used when picking the winner (`float(b.get("final_score", 0))`). -/
def scoreKey (b : Bid) : Rat := b.finalScore.getD 0

/-- Python's `max(bids, key=...)` over a nonempty list: the first element
attaining the maximal key. -/
def pickWinner (h : Bid) (t : List Bid) : Bid :=
  t.foldl (fun best b => if scoreKey best < scoreKey b then b else best) h

/-- `admin.close_auction`. -/
def close_auction (db : DB) (aid : Nat) : Except Err DB :=
  match getAuction db aid with
  | none => Except.error Err.notFound
  | some a =>
    if a.status ≠ AStatus.active then Except.error Err.auctionNotActive
    else
      match get_auction_bids db aid with
      | [] => Except.ok (setAuctionStatus db aid AStatus.cancelled)
      | b0 :: rest =>
        let db1 := (b0 :: rest).foldl (fun d bid => setBidFinal d bid.id (fscore bid)) db
        match get_auction_bids db1 aid with
        | [] => Except.error Err.notFound
        | c0 :: crest =>
          let w := pickWinner c0 crest
          let db2 := setAuctionClosed db1 aid w.userId
          let db3 := (c0 :: crest).foldl (fun d bid =>
            setBookingStatus d bid.bookingId
              (if bid.id = w.id then BStatus.confirmed else BStatus.lostAuction)) db2
          Except.ok db3

/-- `admin.start_ride`. -/
def start_ride (db : DB) (bookingId : Nat) : Except Err DB :=
  match getBooking db bookingId with
  | none => Except.error Err.notFound
  | some bk =>
    if bk.status ≠ BStatus.confirmed then Except.error Err.invalidState
    else match getRideByBooking db bookingId with
      | some _ => Except.error Err.alreadyStarted
      | none => Except.ok (setBookingStatus (addRide db bookingId) bookingId BStatus.active)

/-- `admin.complete_ride`.  The booking status is written `completed`
without any check on its current value. -/
def complete_ride (db : DB) (rideId : Nat) : Except Err DB :=
  match getRide db rideId with
  | none => Except.error Err.notFound
  | some r =>
    if r.status ≠ RStatus.active then Except.error Err.invalidState
    else Except.ok (setBookingStatus (setRideStatus db rideId RStatus.completed)
                      r.bookingId BStatus.completed)

/-- `admin.rate_ride`: creates the rating, then (when the booking and its
user are found) recomputes the user counters, running average and trust
score. -/
def rate_ride (db : DB) (rideId : Nat) (r : RatingInput) : Except Err DB :=
  match getRide db rideId with
  | none => Except.error Err.notFound
  | some ride =>
    if ride.status ≠ RStatus.completed then Except.error Err.invalidState
    else match getRatingByRide db rideId with
      | some _ => Except.error Err.alreadyRated
      | none =>
        let db1 := addRating db rideId r
        match getBooking db1 ride.bookingId with
        | none => Except.ok db1
        | some bk =>
          match getUser db1 bk.userId with
          | none => Except.ok db1
          | some u =>
            let total := u.totalRides + 1
            let damage := u.damageCount + (if r.damageFlag then 1 else 0)
            let rash := u.rashCount + (if r.rashFlag then 1 else 0)
            let newAvg := (u.avgRating * ((total : Rat) - 1) + (r.drivingRating : Rat)) / (total : Rat)
            let trust := max 0 (newAvg * 20 + (total : Rat) * (1/2) -
                                (damage : Rat) * 15 - (rash : Rat) * 10)
            Except.ok (setUserStats db1 bk.userId total newAvg damage rash trust)

/-- The operations of the core, for lifecycle statements that quantify
over every operation. -/
inductive Op
  | request (uid carId : Nat) (s e offer now : Rat)
  | approve (bookingId : Nat)
  | reject (bookingId : Nat)
  | cancel (uid bookingId : Nat) (now : Rat)
  | bid (uid aid : Nat) (offer : Rat)
  | close (aid : Nat)
  | start (bookingId : Nat)
  | complete (rideId : Nat)
  | rate (rideId : Nat) (r : RatingInput)
  deriving Repr, DecidableEq

/-- Run an operation; an error response leaves the database unchanged. -/
def runOp (op : Op) (db : DB) : DB :=
  let res : Except Err DB :=
    match op with
    | Op.request uid carId s e offer now => request_booking db uid carId s e offer now
    | Op.approve i => approve_booking db i
    | Op.reject i => reject_booking db i
    | Op.cancel uid i now => cancel_booking db uid i now
    | Op.bid uid aid offer => place_bid db uid aid offer
    | Op.close aid => close_auction db aid
    | Op.start i => start_ride db i
    | Op.complete i => complete_ride db i
    | Op.rate i r => rate_ride db i r
  match res with
  | Except.ok db' => db'
  | Except.error _ => db

/-- Well-formedness of the booking collection: unique ids, all below the
id counter (uuid4 collisions never happen). -/
def WFbk (db : DB) : Prop :=
  (db.bookings.map Booking.id).Nodup ∧ ∀ b ∈ db.bookings, b.id < db.nextId

instance (db : DB) : Decidable (WFbk db) := by
  unfold WFbk; infer_instance

/-! ## Sample databases and derived definitions used by the theorems -/

/-- Sample database for the C5 witness: user 1 is eligible, car 2 active,
booking 3 is `confirmed` on car 2 over `[0, 10)`. -/
def dbC5 : DB :=
  { users := [{ id := 1, totalRides := 0, avgRating := 0, damageCount := 0,
                rashCount := 0, trustScore := 50, isBlocked := false }],
    cars := [{ id := 2, isActive := true }],
    bookings := [{ id := 3, userId := 4, carId := 2, startTime := 0, endTime := 10,
                   offerPrice := 100, status := BStatus.confirmed }],
    auctions := [], bids := [], rides := [], ratings := [], nextId := 5 }

/-- Sample database for the C8 witness: user 1 (trust 50) owns confirmed
booking 2 starting one hour after `now = 0`. -/
def dbC8 : DB :=
  { users := [{ id := 1, totalRides := 0, avgRating := 0, damageCount := 0,
                rashCount := 0, trustScore := 50, isBlocked := false }],
    cars := [],
    bookings := [{ id := 2, userId := 1, carId := 3, startTime := 3600, endTime := 7200,
                   offerPrice := 100, status := BStatus.confirmed }],
    auctions := [], bids := [], rides := [], ratings := [], nextId := 4 }

/-- The database produced by a successful `rate_ride` whose booking and
user lookups return `bk` and `u`. -/
def rateResult (db : DB) (rideId : Nat) (r : RatingInput) (bk : Booking) (u : User) : DB :=
  let db1 := addRating db rideId r
  let total := u.totalRides + 1
  let damage := u.damageCount + (if r.damageFlag then 1 else 0)
  let rash := u.rashCount + (if r.rashFlag then 1 else 0)
  let newAvg := (u.avgRating * ((total : Rat) - 1) + (r.drivingRating : Rat)) / (total : Rat)
  let trust := max 0 (newAvg * 20 + (total : Rat) * (1/2) -
                      (damage : Rat) * 15 - (rash : Rat) * 10)
  setUserStats db1 bk.userId total newAvg damage rash trust

/-- Sample user for the C7 witness. -/
def uC7 : User :=
  { id := 3, totalRides := 1, avgRating := 4, damageCount := 0,
    rashCount := 0, trustScore := 50, isBlocked := false }

/-- Sample booking for the C7 witness. -/
def bkC7 : Booking :=
  { id := 2, userId := 3, carId := 9, startTime := 0, endTime := 10,
    offerPrice := 100, status := BStatus.completed }

/-- Sample ride for the C7 witness. -/
def rideC7 : Ride := { id := 1, bookingId := 2, status := RStatus.completed }

/-- Sample database for the C7 witness. -/
def dbC7 : DB :=
  { users := [uC7], cars := [], bookings := [bkC7], auctions := [], bids := [],
    rides := [rideC7], ratings := [], nextId := 10 }

/-- Sample rating input for the C7 witness. -/
def inC7 : RatingInput := { drivingRating := 5, damageFlag := true, rashFlag := false }

/-- Sample database for the C6 witness: user 1, active auction 2, bid 3
with offer 100 linked to booking 4. -/
def dbC6 : DB :=
  { users := [{ id := 1, totalRides := 0, avgRating := 0, damageCount := 0,
                rashCount := 0, trustScore := 50, isBlocked := false }],
    cars := [],
    bookings := [{ id := 4, userId := 1, carId := 9, startTime := 0, endTime := 10,
                   offerPrice := 100, status := BStatus.competing }],
    auctions := [{ id := 2, carId := 9, startTime := 0, endTime := 10, auctionEnd := 100,
                   status := AStatus.active, winnerId := none }],
    bids := [{ id := 3, auctionId := 2, userId := 1, bookingId := 4, offerPrice := 100,
               trustSnapshot := 50, finalScore := none }],
    rides := [], ratings := [], nextId := 10 }

/-- Sample database for the C9 witness: auction 1 is active with no bids;
auction 2 is already closed. -/
def dbC9 : DB :=
  { users := [], cars := [], bookings := [],
    auctions := [{ id := 1, carId := 9, startTime := 0, endTime := 10, auctionEnd := 100,
                   status := AStatus.active, winnerId := none },
                 { id := 2, carId := 9, startTime := 0, endTime := 10, auctionEnd := 100,
                   status := AStatus.closed, winnerId := some 7 }],
    bids := [], rides := [], ratings := [], nextId := 10 }

/-- Sample database for C3: user 1 has trust 5 (below the reject
threshold of 10) and is not blocked; they hold bid 3 (offer 100) in the
active auction 2, linked to booking 4. -/
def dbC3 : DB :=
  { users := [{ id := 1, totalRides := 0, avgRating := 0, damageCount := 0,
                rashCount := 0, trustScore := 5, isBlocked := false }],
    cars := [],
    bookings := [{ id := 4, userId := 1, carId := 9, startTime := 0, endTime := 10,
                   offerPrice := 100, status := BStatus.competing }],
    auctions := [{ id := 2, carId := 9, startTime := 0, endTime := 10, auctionEnd := 100,
                   status := AStatus.active, winnerId := none }],
    bids := [{ id := 3, auctionId := 2, userId := 1, bookingId := 4, offerPrice := 100,
               trustSnapshot := 50, finalScore := none }],
    rides := [], ratings := [], nextId := 10 }

/-- Sample database for the C10 witness: car 2 is active; booking 3 on
car 2 is `active` (ride in progress) over `[0, 10)`; user 1 is eligible. -/
def dbC10 : DB :=
  { users := [{ id := 1, totalRides := 0, avgRating := 0, damageCount := 0,
                rashCount := 0, trustScore := 50, isBlocked := false }],
    cars := [{ id := 2, isActive := true }],
    bookings := [{ id := 3, userId := 7, carId := 2, startTime := 0, endTime := 10,
                   offerPrice := 100, status := BStatus.active }],
    auctions := [], bids := [], rides := [], ratings := [], nextId := 5 }

/-- The lifecycle claimed by the specification:
`pending → {competing, rejected, cancelled}`,
`competing → {confirmed, lost_auction, cancelled}`,
`confirmed → {active, cancelled, completed}`, `active → completed`. -/
def specStep (old new : BStatus) : Bool :=
  match old, new with
  | BStatus.pending, BStatus.competing => true
  | BStatus.pending, BStatus.rejected => true
  | BStatus.pending, BStatus.cancelled => true
  | BStatus.competing, BStatus.confirmed => true
  | BStatus.competing, BStatus.lostAuction => true
  | BStatus.competing, BStatus.cancelled => true
  | BStatus.confirmed, BStatus.active => true
  | BStatus.confirmed, BStatus.cancelled => true
  | BStatus.confirmed, BStatus.completed => true
  | BStatus.active, BStatus.completed => true
  | _, _ => false

/-- The transition relation the code actually enforces: `competing`,
`rejected`, `cancelled` and `active` writes are guarded by the statuses
shown, while `approve`/`closeAuction`/`completeRide` write `confirmed`,
`lost_auction` and `completed` without restricting the prior status
beyond their own entity guards. -/
def codeStep (old new : BStatus) : Bool :=
  match new with
  | BStatus.completed => true
  | BStatus.confirmed => true
  | BStatus.lostAuction => true
  | BStatus.competing => decide (old = BStatus.pending) || decide (old = BStatus.competing)
  | BStatus.rejected => decide (old = BStatus.pending) || decide (old = BStatus.competing)
  | BStatus.cancelled => decide (old = BStatus.pending) || decide (old = BStatus.competing) ||
      decide (old = BStatus.confirmed)
  | BStatus.active => decide (old = BStatus.confirmed)
  | BStatus.pending => false

/-- Booking-status evolution between two database states: every booking
survives with its id, its status unchanged or rewritten along `codeStep`. -/
def StatusEvol (pre post : DB) : Prop :=
  ∀ b ∈ pre.bookings, ∃ b' ∈ post.bookings,
    b'.id = b.id ∧ (b'.status = b.status ∨ codeStep b.status b'.status = true)

/-- Sample database for the C2 counterexample: a single pending booking. -/
def dbC2 : DB :=
  { users := [], cars := [],
    bookings := [{ id := 1, userId := 1, carId := 1, startTime := 0, endTime := 10,
                   offerPrice := 100, status := BStatus.pending }],
    auctions := [], bids := [], rides := [], ratings := [], nextId := 2 }

/-- Sample database for the C1 witness (spec Scenario A): auction 5 is
active with bid 1 (user 10, offer 1000, trust snapshot 80) and bid 2
(user 11, offer 1200, trust snapshot 20); final scores 1800 vs 1440, so
user 10 wins despite the lower offer. -/
def dbC1 : DB :=
  { users := [], cars := [],
    bookings := [{ id := 20, userId := 10, carId := 9, startTime := 0, endTime := 10,
                   offerPrice := 1000, status := BStatus.competing },
                 { id := 21, userId := 11, carId := 9, startTime := 0, endTime := 10,
                   offerPrice := 1200, status := BStatus.competing }],
    auctions := [{ id := 5, carId := 9, startTime := 0, endTime := 10, auctionEnd := 100,
                   status := AStatus.active, winnerId := none }],
    bids := [{ id := 1, auctionId := 5, userId := 10, bookingId := 20, offerPrice := 1000,
               trustSnapshot := 80, finalScore := none },
             { id := 2, auctionId := 5, userId := 11, bookingId := 21, offerPrice := 1200,
               trustSnapshot := 20, finalScore := none }],
    rides := [], ratings := [], nextId := 30 }

/-! ## Generic list helpers -/

/-- `find?` commutes with a map that does not disturb the predicate. -/
theorem find?_map_invariant {α : Type} {p : α → Bool} (f : α → α)
    (hp : ∀ a, p (f a) = p a) :
    ∀ l : List α, (l.map f).find? p = (l.find? p).map f := by
  intro l
  induction l with
  | nil => rfl
  | cons a t ih =>
    by_cases h : p a = true
    · simp [List.find?_cons, hp, h]
    · simp only [Bool.not_eq_true] at h
      simp [List.find?_cons, hp, h, ih]

/-- `filter` commutes with a map that does not disturb the predicate. -/
theorem filter_map_invariant {α : Type} {p : α → Bool} (f : α → α)
    (hp : ∀ a, p (f a) = p a) :
    ∀ l : List α, (l.map f).filter p = (l.filter p).map f := by
  intro l
  induction l with
  | nil => rfl
  | cons a t ih =>
    by_cases h : p a = true
    · simp [List.filter_cons, hp, h, ih]
    · simp only [Bool.not_eq_true] at h
      simp [List.filter_cons, hp, h, ih]

/-- Two members of a list with duplicate-free keys that share a key are equal. -/
theorem key_unique {α κ : Type} (key : α → κ) {l : List α}
    (hN : (l.map key).Nodup) {a c : α} (ha : a ∈ l) (hc : c ∈ l)
    (h : key a = key c) : a = c :=
  List.inj_on_of_nodup_map hN ha hc h

/-! ## C4: interval conflict detector -/

/-- C4: the conflict detector reports an overlap of `[s1,e1)` and `[s2,e2)`
iff `s1 < e2` and `s2 < e1`; the relation is symmetric and touching
endpoints never conflict; `get_conflicting_bookings` returns exactly the
stored bookings of the car in the contention statuses
(`pending`/`competing`), other than the excluded one, whose interval
overlaps the candidate interval under this rule. -/
theorem C4_conflict_detector :
    (∀ (db : DB) (carId : Nat) (s e : Rat) (excl : Option Nat) (b : Booking),
      b ∈ get_conflicting_bookings db carId s e excl ↔
        (b ∈ db.bookings ∧ b.carId = carId ∧
         (b.status = BStatus.pending ∨ b.status = BStatus.competing) ∧
         overlapQ b.startTime b.endTime s e ∧ ∀ i, excl = some i → b.id ≠ i)) ∧
    (∀ s1 e1 s2 e2 : Rat, overlapQ s1 e1 s2 e2 ↔ overlapQ s2 e2 s1 e1) ∧
    (∀ s1 m e2 : Rat, ¬ overlapQ s1 m m e2) ∧
    (∀ s1 m e2 : Rat, ¬ overlapQ m e2 s1 m) := by
  refine ⟨?_, ?_, ?_, ?_⟩
  · intro db carId s e excl b
    simp [get_conflicting_bookings, List.mem_filter, decide_eq_true_iff, and_assoc]
  · intro s1 e1 s2 e2
    unfold overlapQ
    exact and_comm
  · intro s1 m e2
    simp [overlapQ]
  · intro s1 m e2
    simp [overlapQ]

/-! ## C5: confirmed overlap hard-blocks a request -/

/-- C5: a reservation request on a car that already has a `confirmed`
booking overlapping the requested interval fails with `SlotUnavailable`;
the handler raises before any write, so no reservation, auction or bid is
created. -/
theorem C5_confirmed_overlap_blocks
    (db : DB) (uid : Nat) (u : User) (carId : Nat) (s e offer now : Rat) (car : Car)
    (hu : getUser db uid = some u) (hnb : u.isBlocked = false)
    (htr : AUTO_REJECT_THRESHOLD ≤ u.trustScore) (hse : s < e)
    (hc : getCar db carId = some car) (hact : car.isActive = true)
    (hconf : ∃ b ∈ db.bookings, b.status = BStatus.confirmed ∧ b.carId = carId ∧
      overlapQ b.startTime b.endTime s e) :
    request_booking db uid carId s e offer now = Except.error Err.slotUnavailable := by
  have hany : db.bookings.any (fun b => decide
      (b.status = BStatus.confirmed ∧ b.carId = carId ∧
       overlapQ b.startTime b.endTime s e)) = true := by
    rw [List.any_eq_true]
    obtain ⟨b, hb, h1, h2, h3⟩ := hconf
    exact ⟨b, hb, by simp [h1, h2, h3]⟩
  unfold request_booking
  rw [hu, hc]
  simp [hnb, not_le.mpr hse, not_lt.mpr htr, hact, hany]
  intro h
  obtain ⟨b, hb, h1, h2, h3⟩ := hconf
  exact absurd h3 (h b hb h1 h2)

/-- Witness for C5 at a concrete input: requesting `[5, 15)` on car 2
fails with `SlotUnavailable`. -/
theorem C5_witness :
    request_booking dbC5 1 2 5 15 100 0 = Except.error Err.slotUnavailable :=
  C5_confirmed_overlap_blocks dbC5 1
    { id := 1, totalRides := 0, avgRating := 0, damageCount := 0,
      rashCount := 0, trustScore := 50, isBlocked := false }
    2 5 15 100 0 { id := 2, isActive := true }
    (by decide) (by decide) (by decide) (by decide) (by decide) (by decide)
    ⟨{ id := 3, userId := 4, carId := 2, startTime := 0, endTime := 10,
       offerPrice := 100, status := BStatus.confirmed },
     by decide, by decide, by decide, by constructor <;> decide⟩

/-! ## Setter lemmas -/

/-- Every booking carrying the targeted id has the written status afterwards. -/
theorem setBookingStatus_status (db : DB) (i : Nat) (st : BStatus) :
    ∀ b' ∈ (setBookingStatus db i st).bookings, b'.id = i → b'.status = st := by
  intro b' hb' hid
  simp only [setBookingStatus, List.mem_map] at hb'
  obtain ⟨b, _, rfl⟩ := hb'
  by_cases h : b.id = i
  · simp [h]
  · simp only [if_neg h] at hid ⊢
    exact absurd hid h

/-- Every user carrying the targeted id has the written trust score afterwards. -/
theorem setUserTrust_trust (db : DB) (i : Nat) (t : Rat) :
    ∀ u' ∈ (setUserTrust db i t).users, u'.id = i → u'.trustScore = t := by
  intro u' hu' hid
  simp only [setUserTrust, List.mem_map] at hu'
  obtain ⟨u, _, rfl⟩ := hu'
  by_cases h : u.id = i
  · simp [h]
  · simp only [if_neg h] at hid ⊢
    exact absurd hid h

/-- Every user carrying the targeted id has the written counters afterwards. -/
theorem setUserStats_fields (db : DB) (i rides : Nat) (avg : Rat)
    (damage rash : Nat) (trust : Rat) :
    ∀ u' ∈ (setUserStats db i rides avg damage rash trust).users, u'.id = i →
      u'.totalRides = rides ∧ u'.avgRating = avg ∧ u'.damageCount = damage ∧
      u'.rashCount = rash ∧ u'.trustScore = trust := by
  intro u' hu' hid
  simp only [setUserStats, List.mem_map] at hu'
  obtain ⟨u, _, rfl⟩ := hu'
  by_cases h : u.id = i
  · simp [h]
  · simp only [if_neg h] at hid ⊢
    exact absurd hid h

/-! ## C8: late-cancellation penalty -/

/-- C8: cancelling a `confirmed` booking strictly less than 24 hours before
its start subtracts the fixed late penalty once, clamped at 0; cancelling a
`confirmed` booking 24 hours or more ahead, or a `pending`/`competing`
booking at any time, leaves every trust score unchanged; in every case the
booking becomes `cancelled`. -/
theorem C8_cancel_penalty
    (db : DB) (uid bookingId : Nat) (now : Rat) (u : User) (bk : Booking)
    (hu : getUser db uid = some u) (hnb : u.isBlocked = false)
    (hb : getBooking db bookingId = some bk) (hown : bk.userId = uid) :
    (bk.status = BStatus.confirmed → (bk.startTime - now) / 3600 < 24 →
      ∃ db', cancel_booking db uid bookingId now = Except.ok db' ∧
        (∀ u' ∈ db'.users, u'.id = uid →
          u'.trustScore = max 0 (u.trustScore - LATE_CANCEL_PENALTY)) ∧
        (∀ b' ∈ db'.bookings, b'.id = bookingId → b'.status = BStatus.cancelled)) ∧
    (bk.status = BStatus.confirmed → ¬ (bk.startTime - now) / 3600 < 24 →
      ∃ db', cancel_booking db uid bookingId now = Except.ok db' ∧
        db'.users = db.users ∧
        (∀ b' ∈ db'.bookings, b'.id = bookingId → b'.status = BStatus.cancelled)) ∧
    ((bk.status = BStatus.pending ∨ bk.status = BStatus.competing) →
      ∃ db', cancel_booking db uid bookingId now = Except.ok db' ∧
        db'.users = db.users ∧
        (∀ b' ∈ db'.bookings, b'.id = bookingId → b'.status = BStatus.cancelled)) := by
  refine ⟨?_, ?_, ?_⟩
  · intro hst hlate
    have hrun : cancel_booking db uid bookingId now = Except.ok
        (setBookingStatus (setUserTrust db uid (max 0 (u.trustScore - LATE_CANCEL_PENALTY)))
          bookingId BStatus.cancelled) := by
      unfold cancel_booking
      rw [hu, hb]
      simp [hnb, hown, hst, hlate]
    refine ⟨_, hrun, ?_, ?_⟩
    · intro u' hu' hid
      exact setUserTrust_trust _ _ _ u' hu' hid
    · intro b' hb' hid
      exact setBookingStatus_status _ _ _ b' hb' hid
  · intro hst hlate
    have hrun : cancel_booking db uid bookingId now = Except.ok
        (setBookingStatus db bookingId BStatus.cancelled) := by
      unfold cancel_booking
      rw [hu, hb]
      simp [hnb, hown, hst, hlate]
    refine ⟨_, hrun, rfl, ?_⟩
    intro b' hb' hid
    exact setBookingStatus_status _ _ _ b' hb' hid
  · intro hst
    have hrun : cancel_booking db uid bookingId now = Except.ok
        (setBookingStatus db bookingId BStatus.cancelled) := by
      unfold cancel_booking
      rw [hu, hb]
      rcases hst with h | h <;> simp [hnb, hown, h]
    refine ⟨_, hrun, rfl, ?_⟩
    intro b' hb' hid
    exact setBookingStatus_status _ _ _ b' hb' hid

/-- Witness for C8 at a concrete input: the late branch applies the
5-point penalty and cancels the booking. -/
theorem C8_witness :
    ∃ db', cancel_booking dbC8 1 2 0 = Except.ok db' ∧
      (∀ u' ∈ db'.users, u'.id = 1 →
        u'.trustScore = max 0 ((50 : Rat) - LATE_CANCEL_PENALTY)) ∧
      (∀ b' ∈ db'.bookings, b'.id = 2 → b'.status = BStatus.cancelled) :=
  (C8_cancel_penalty dbC8 1 2 0
    { id := 1, totalRides := 0, avgRating := 0, damageCount := 0,
      rashCount := 0, trustScore := 50, isBlocked := false }
    { id := 2, userId := 1, carId := 3, startTime := 3600, endTime := 7200,
      offerPrice := 100, status := BStatus.confirmed }
    (by decide) (by decide) (by decide) (by decide)).1 (by decide) (by norm_num)

/-! ## C7: ride rating updates the trust engine -/

/-- C7: rating a completed ride increments the ride count, bumps the
damage/rash counters exactly when the flags are set, recomputes the
running average as `((oldAvg * oldCount) + rating) / (oldCount + 1)` with
`oldCount` the pre-increment ride count, and sets the trust score to
`max 0 (newAvg*20 + newRideCount*0.5 - damage*15 - rash*10)`, which is
never negative. -/
theorem C7_rate_ride
    (db : DB) (rideId : Nat) (r : RatingInput) (ride : Ride) (bk : Booking) (u : User)
    (hr : getRide db rideId = some ride) (hst : ride.status = RStatus.completed)
    (hnr : getRatingByRide db rideId = none)
    (hb : getBooking db ride.bookingId = some bk)
    (hu : getUser db bk.userId = some u) :
    ∃ db', rate_ride db rideId r = Except.ok db' ∧
      ∀ u' ∈ db'.users, u'.id = bk.userId →
        u'.totalRides = u.totalRides + 1 ∧
        u'.damageCount = u.damageCount + (if r.damageFlag then 1 else 0) ∧
        u'.rashCount = u.rashCount + (if r.rashFlag then 1 else 0) ∧
        u'.avgRating = (u.avgRating * (u.totalRides : Rat) + (r.drivingRating : Rat)) /
          ((u.totalRides : Rat) + 1) ∧
        u'.trustScore = max 0 (u'.avgRating * 20 + ((u.totalRides : Rat) + 1) * (1/2) -
          (u'.damageCount : Rat) * 15 - (u'.rashCount : Rat) * 10) ∧
        0 ≤ u'.trustScore := by
  have hb1 : getBooking (addRating db rideId r) ride.bookingId = some bk := hb
  have hu1 : getUser (addRating db rideId r) bk.userId = some u := hu
  have hrun : rate_ride db rideId r = Except.ok (rateResult db rideId r bk u) := by
    unfold rate_ride rateResult
    rw [hr]
    simp [hst, hnr, hb1, hu1]
  refine ⟨_, hrun, ?_⟩
  intro u' hu' hid
  have hmem : u' ∈ (setUserStats (addRating db rideId r) bk.userId (u.totalRides + 1)
      ((u.avgRating * (((u.totalRides + 1 : Nat) : Rat) - 1) + (r.drivingRating : Rat)) /
        ((u.totalRides + 1 : Nat) : Rat))
      (u.damageCount + (if r.damageFlag then 1 else 0))
      (u.rashCount + (if r.rashFlag then 1 else 0))
      (max 0 ((u.avgRating * (((u.totalRides + 1 : Nat) : Rat) - 1) + (r.drivingRating : Rat)) /
        ((u.totalRides + 1 : Nat) : Rat) * 20 + ((u.totalRides + 1 : Nat) : Rat) * (1/2) -
        ((u.damageCount + (if r.damageFlag then 1 else 0) : Nat) : Rat) * 15 -
        ((u.rashCount + (if r.rashFlag then 1 else 0) : Nat) : Rat) * 10))).users := hu'
  have h := setUserStats_fields _ _ _ _ _ _ _ u' hmem hid
  obtain ⟨h1, h2, h3, h4, h5⟩ := h
  have havg : u'.avgRating = (u.avgRating * (u.totalRides : Rat) + (r.drivingRating : Rat)) /
      ((u.totalRides : Rat) + 1) := by
    rw [h2]
    push_cast
    ring_nf
  refine ⟨h1, h3, h4, havg, ?_, ?_⟩
  · rw [h5, h2, h3, h4]
    congr 1
    push_cast
    ring
  · rw [h5]
    exact le_max_left 0 _

/-- Witness for C7 at a concrete input. -/
theorem C7_witness :
    ∃ db', rate_ride dbC7 1 inC7 = Except.ok db' ∧
      ∀ u' ∈ db'.users, u'.id = bkC7.userId →
        u'.totalRides = uC7.totalRides + 1 ∧
        u'.damageCount = uC7.damageCount + (if inC7.damageFlag then 1 else 0) ∧
        u'.rashCount = uC7.rashCount + (if inC7.rashFlag then 1 else 0) ∧
        u'.avgRating = (uC7.avgRating * (uC7.totalRides : Rat) + (inC7.drivingRating : Rat)) /
          ((uC7.totalRides : Rat) + 1) ∧
        u'.trustScore = max 0 (u'.avgRating * 20 + ((uC7.totalRides : Rat) + 1) * (1/2) -
          (u'.damageCount : Rat) * 15 - (u'.rashCount : Rat) * 10) ∧
        0 ≤ u'.trustScore :=
  C7_rate_ride dbC7 1 inC7 rideC7 bkC7 uC7 (by decide) rfl (by decide) (by decide) (by decide)

/-! ## C6: bid admission rules -/

/-- C6: on an active auction, a bid holder's update with a lower-or-equal
offer fails with `BidMustIncrease` and changes nothing; a higher offer
rewrites the bid's offer, mirrors it onto the linked booking's offered
price and leaves the trust snapshot untouched; a caller with no bid fails
with `NoExistingStake`; a non-active auction fails with
`AuctionNotActive`. -/
theorem C6_place_bid
    (db : DB) (uid aid : Nat) (offer : Rat) (u : User) (a : Auction)
    (hu : getUser db uid = some u) (hnb : u.isBlocked = false) (hpos : 0 < offer)
    (ha : getAuction db aid = some a) :
    (a.status ≠ AStatus.active → place_bid db uid aid offer = Except.error Err.auctionNotActive) ∧
    (a.status = AStatus.active → getBid db uid aid = none →
      place_bid db uid aid offer = Except.error Err.noExistingStake) ∧
    (∀ bid, a.status = AStatus.active → getBid db uid aid = some bid →
      offer ≤ bid.offerPrice →
      place_bid db uid aid offer = Except.error Err.bidMustIncrease) ∧
    (∀ bid, a.status = AStatus.active → getBid db uid aid = some bid →
      bid.offerPrice < offer →
      ∃ db', place_bid db uid aid offer = Except.ok db' ∧
        db'.bids = db.bids.map
          (fun b => if b.id = bid.id then { b with offerPrice := offer } else b) ∧
        db'.bookings = db.bookings.map
          (fun b => if b.id = bid.bookingId then { b with offerPrice := offer } else b) ∧
        db'.auctions = db.auctions ∧ db'.users = db.users ∧
        (∃ b' ∈ db'.bids, b'.id = bid.id ∧ b'.offerPrice = offer ∧
          b'.trustSnapshot = bid.trustSnapshot ∧ b'.auctionId = bid.auctionId)) := by
  refine ⟨?_, ?_, ?_, ?_⟩
  · intro hst
    unfold place_bid
    rw [hu, ha]
    simp [hnb, hpos, hst]
  · intro hst hbid
    unfold place_bid
    rw [hu, ha]
    simp [hnb, hpos, hst, hbid]
  · intro bid hst hbid hle
    unfold place_bid
    rw [hu, ha]
    simp [hnb, hpos, hst, hbid, hle]
  · intro bid hst hbid hlt
    have hrun : place_bid db uid aid offer = Except.ok
        (setBookingOffer (setBidOffer db bid.id offer) bid.bookingId offer) := by
      unfold place_bid
      rw [hu, ha]
      simp [hnb, hpos, hst, hbid, not_le.mpr hlt]
    refine ⟨_, hrun, rfl, rfl, rfl, rfl, ?_⟩
    have hmem : bid ∈ db.bids := List.mem_of_find?_eq_some hbid
    refine ⟨{ bid with offerPrice := offer }, ?_, rfl, rfl, rfl, rfl⟩
    have : (fun b => if b.id = bid.id then { b with offerPrice := offer } else b) bid
        = { bid with offerPrice := offer } := by simp
    exact this ▸ List.mem_map_of_mem _ hmem

/-- Witness for C6 at a concrete input: raising the offer from 100 to 150
succeeds and rewrites bid and booking. -/
theorem C6_witness :
    ∃ db', place_bid dbC6 1 2 150 = Except.ok db' ∧
      db'.bids = dbC6.bids.map
        (fun b => if b.id = 3 then { b with offerPrice := 150 } else b) ∧
      db'.bookings = dbC6.bookings.map
        (fun b => if b.id = 4 then { b with offerPrice := 150 } else b) ∧
      db'.auctions = dbC6.auctions ∧ db'.users = dbC6.users ∧
      (∃ b' ∈ db'.bids, b'.id = 3 ∧ b'.offerPrice = 150 ∧
        b'.trustSnapshot = (50 : Rat) ∧ b'.auctionId = 2) :=
  (C6_place_bid dbC6 1 2 150
    { id := 1, totalRides := 0, avgRating := 0, damageCount := 0,
      rashCount := 0, trustScore := 50, isBlocked := false }
    { id := 2, carId := 9, startTime := 0, endTime := 10, auctionEnd := 100,
      status := AStatus.active, winnerId := none }
    (by decide) (by decide) (by decide) (by decide)).2.2.2
    { id := 3, auctionId := 2, userId := 1, bookingId := 4, offerPrice := 100,
      trustSnapshot := 50, finalScore := none }
    (by decide) (by decide) (by decide)

/-! ## C9: closing is sequentially idempotent -/

/-- The final-score fold of `close_auction` leaves the auction collection alone. -/
theorem foldFinal_auctions (L : List Bid) (db : DB) :
    (L.foldl (fun d bid => setBidFinal d bid.id (fscore bid)) db).auctions = db.auctions := by
  induction L generalizing db with
  | nil => rfl
  | cons x t ih => exact ih (setBidFinal db x.id (fscore x))

/-- The final-score fold of `close_auction` leaves the booking collection alone. -/
theorem foldFinal_bookings_eq (L : List Bid) (db : DB) :
    (L.foldl (fun d bid => setBidFinal d bid.id (fscore bid)) db).bookings = db.bookings := by
  induction L generalizing db with
  | nil => rfl
  | cons x t ih => exact ih (setBidFinal db x.id (fscore x))

/-- The booking-status fold of `close_auction` leaves the auction collection alone. -/
theorem foldStatus_auctions (L : List Bid) (w : Bid) (db : DB) :
    (L.foldl (fun d bid => setBookingStatus d bid.bookingId
      (if bid.id = w.id then BStatus.confirmed else BStatus.lostAuction)) db).auctions
    = db.auctions := by
  induction L generalizing db with
  | nil => rfl
  | cons x t ih => exact ih _

/-- The booking-status fold of `close_auction` leaves the bid collection alone. -/
theorem foldStatus_bids (L : List Bid) (w : Bid) (db : DB) :
    (L.foldl (fun d bid => setBookingStatus d bid.bookingId
      (if bid.id = w.id then BStatus.confirmed else BStatus.lostAuction)) db).bids
    = db.bids := by
  induction L generalizing db with
  | nil => rfl
  | cons x t ih => exact ih _

/-- `getAuction` after `setAuctionStatus`. -/
theorem getAuction_setAuctionStatus (db : DB) (i : Nat) (st : AStatus) (aid : Nat) :
    getAuction (setAuctionStatus db i st) aid =
      (getAuction db aid).map (fun a => if a.id = i then { a with status := st } else a) := by
  unfold getAuction setAuctionStatus
  exact find?_map_invariant _ (by intro a; by_cases h : a.id = i <;> simp [h]) _

/-- `getAuction` after `setAuctionClosed`. -/
theorem getAuction_setAuctionClosed (db : DB) (i w : Nat) (aid : Nat) :
    getAuction (setAuctionClosed db i w) aid =
      (getAuction db aid).map (fun a =>
        if a.id = i then { a with status := AStatus.closed, winnerId := some w } else a) := by
  unfold getAuction setAuctionClosed
  exact find?_map_invariant _ (by intro a; by_cases h : a.id = i <;> simp [h]) _

/-- A found auction carries the looked-up id. -/
theorem getAuction_id {db : DB} {aid : Nat} {a : Auction}
    (h : getAuction db aid = some a) : a.id = aid := by
  have := List.find?_some h
  simpa using this

/-- C9: closing an active auction with zero bids cancels it, does not
error and does not touch the winner field; once a close succeeded — and
generally whenever the auction is no longer `active` — every further
`closeAuction` call fails with `AuctionNotActive` and, being an error,
changes no auction, bid or reservation. -/
theorem C9_close_idempotent (db : DB) (aid : Nat) :
    (∀ a, getAuction db aid = some a → a.status = AStatus.active →
      get_auction_bids db aid = [] →
      close_auction db aid = Except.ok (setAuctionStatus db aid AStatus.cancelled) ∧
      getAuction (setAuctionStatus db aid AStatus.cancelled) aid =
        some { a with status := AStatus.cancelled }) ∧
    (∀ db', close_auction db aid = Except.ok db' →
      close_auction db' aid = Except.error Err.auctionNotActive) ∧
    (∀ a, getAuction db aid = some a → a.status ≠ AStatus.active →
      close_auction db aid = Except.error Err.auctionNotActive) := by
  refine ⟨?_, ?_, ?_⟩
  · intro a ha hact hbids
    constructor
    · unfold close_auction
      rw [ha, hbids]
      simp [hact]
    · rw [getAuction_setAuctionStatus, ha]
      simp [getAuction_id ha]
  · intro db' hok
    unfold close_auction at hok
    cases ha : getAuction db aid with
    | none => rw [ha] at hok; cases hok
    | some a =>
      rw [ha] at hok
      simp only [] at hok
      by_cases hact : a.status = AStatus.active
      · rw [if_neg (by simp [hact])] at hok
        cases hbids : get_auction_bids db aid with
        | nil =>
          rw [hbids] at hok
          simp only [] at hok
          have hdb' : db' = setAuctionStatus db aid AStatus.cancelled := by
            cases hok; rfl
          subst hdb'
          unfold close_auction
          rw [getAuction_setAuctionStatus, ha]
          simp [getAuction_id ha]
        | cons b0 rest =>
          rw [hbids] at hok
          simp only [] at hok
          set db1 := (b0 :: rest).foldl (fun d bid => setBidFinal d bid.id (fscore bid)) db with hdb1
          cases hbids1 : get_auction_bids db1 aid with
          | nil => rw [hbids1] at hok; cases hok
          | cons c0 crest =>
            rw [hbids1] at hok
            have hdb' : db' = (c0 :: crest).foldl (fun d bid =>
                setBookingStatus d bid.bookingId
                  (if bid.id = (pickWinner c0 crest).id then BStatus.confirmed
                   else BStatus.lostAuction))
                (setAuctionClosed db1 aid (pickWinner c0 crest).userId) := by
              cases hok; rfl
            have hauc : getAuction db' aid =
                some { a with
                        status := AStatus.closed,
                        winnerId := some (pickWinner c0 crest).userId } := by
              have h1 : db'.auctions =
                  (setAuctionClosed db1 aid (pickWinner c0 crest).userId).auctions := by
                rw [hdb']
                exact foldStatus_auctions _ _ _
              have h2 : getAuction db' aid =
                  getAuction (setAuctionClosed db1 aid (pickWinner c0 crest).userId) aid := by
                unfold getAuction
                rw [h1]
              rw [h2, getAuction_setAuctionClosed]
              have h3 : getAuction db1 aid = some a := by
                unfold getAuction
                rw [hdb1, foldFinal_auctions]
                exact ha
              rw [h3]
              simp [getAuction_id ha]
            unfold close_auction
            rw [hauc]
            simp
      · rw [if_pos (by simp [hact])] at hok
        cases hok
  · intro a ha hact
    unfold close_auction
    rw [ha]
    simp [hact]

/-- Witness for C9 at a concrete input: auction 1 closes to `cancelled`
with its winner field untouched. -/
theorem C9_witness :
    close_auction dbC9 1 = Except.ok (setAuctionStatus dbC9 1 AStatus.cancelled) ∧
    getAuction (setAuctionStatus dbC9 1 AStatus.cancelled) 1 =
      some { id := 1, carId := 9, startTime := 0, endTime := 10, auctionEnd := 100,
             status := AStatus.cancelled, winnerId := none } :=
  (C9_close_idempotent dbC9 1).1
    { id := 1, carId := 9, startTime := 0, endTime := 10, auctionEnd := 100,
      status := AStatus.active, winnerId := none }
    (by decide) (by decide) (by decide)

/-! ## C3: eligibility gating -/

/-- Counterexample to C3: a user whose trust score is below the reject
threshold (and who is not blocked) successfully updates their stored bid
through `place_bid` — the handler never checks the trust score. -/
theorem C3_counterexample :
    ∃ u ∈ dbC3.users, u.trustScore < AUTO_REJECT_THRESHOLD ∧ u.isBlocked = false ∧
      place_bid dbC3 u.id 2 200 =
        Except.ok (setBookingOffer (setBidOffer dbC3 3 200) 4 200) ∧
      (setBookingOffer (setBidOffer dbC3 3 200) 4 200).bids ≠ dbC3.bids := by
  decide

/-- C3 amended: a blocked user is refused both reservation creation and
bid placement (by the session-validation gate, before either handler
body); a user below the reject threshold is refused reservation creation
with `NotEligible` and no reservation is created; but `placeBid` performs
no trust-score check at all — any authenticated non-blocked bid holder in
an active auction whose new offer is higher succeeds regardless of trust
score. -/
theorem C3_amended (db : DB) (uid : Nat) (u : User) (hu : getUser db uid = some u) :
    (u.isBlocked = true →
      (∀ carId : Nat, ∀ s e offer now : Rat,
        request_booking db uid carId s e offer now = Except.error Err.blocked) ∧
      (∀ aid : Nat, ∀ offer : Rat, place_bid db uid aid offer = Except.error Err.blocked)) ∧
    (u.isBlocked = false → u.trustScore < AUTO_REJECT_THRESHOLD →
      ∀ carId : Nat, ∀ s e offer now : Rat, s < e →
        request_booking db uid carId s e offer now = Except.error Err.notEligible) ∧
    (u.isBlocked = false → ∀ aid : Nat, ∀ offer : Rat, ∀ a bid, 0 < offer →
      getAuction db aid = some a → a.status = AStatus.active →
      getBid db uid aid = some bid → bid.offerPrice < offer →
      ∃ db', place_bid db uid aid offer = Except.ok db') := by
  refine ⟨?_, ?_, ?_⟩
  · intro hbl
    constructor
    · intro carId s e offer now
      unfold request_booking
      rw [hu]
      simp [hbl]
    · intro aid offer
      unfold place_bid
      rw [hu]
      simp [hbl]
  · intro hbl htr carId s e offer now hse
    unfold request_booking
    rw [hu]
    simp [hbl, not_le.mpr hse, htr]
  · intro hbl aid offer a bid hpos ha hact hbid hlt
    refine ⟨setBookingOffer (setBidOffer db bid.id offer) bid.bookingId offer, ?_⟩
    unfold place_bid
    rw [hu, ha]
    simp [hbl, hpos, hact, hbid, not_le.mpr hlt]

/-- Witness for the amended C3 at a concrete input: the below-threshold
user of `dbC3` succeeds in raising their bid. -/
theorem C3_amended_witness :
    ∃ db', place_bid dbC3 1 2 300 = Except.ok db' :=
  (C3_amended dbC3 1
    { id := 1, totalRides := 0, avgRating := 0, damageCount := 0,
      rashCount := 0, trustScore := 5, isBlocked := false }
    (by decide)).2.2 (by decide) 2 300
    { id := 2, carId := 9, startTime := 0, endTime := 10, auctionEnd := 100,
      status := AStatus.active, winnerId := none }
    { id := 3, auctionId := 2, userId := 1, bookingId := 4, offerPrice := 100,
      trustSnapshot := 50, finalScore := none }
    (by decide) (by decide) (by decide) (by decide) (by decide)

/-! ## C10: active reservations neither block nor escalate -/

/-- C10: the hard block scans only `confirmed` bookings and the contention
scan only `pending`/`competing` ones, so a request overlapping an
`active` booking (ride in progress) on the same car succeeds, creates a
`pending` reservation, opens no auction and no bid, and an admin can then
approve it to `confirmed` while the overlapping booking is still
`active`. -/
theorem C10_active_overlap_not_blocking
    (db : DB) (uid : Nat) (u : User) (carId : Nat) (s e offer now : Rat) (car : Car)
    (hu : getUser db uid = some u) (hnb : u.isBlocked = false)
    (htr : AUTO_REJECT_THRESHOLD ≤ u.trustScore) (hse : s < e)
    (hc : getCar db carId = some car) (hact : car.isActive = true)
    (hfresh : ∀ b ∈ db.bookings, b.id ≠ db.nextId)
    (hnoconf : ∀ b ∈ db.bookings, b.carId = carId →
      overlapQ b.startTime b.endTime s e → b.status ≠ BStatus.confirmed)
    (hnocont : ∀ b ∈ db.bookings, b.carId = carId →
      overlapQ b.startTime b.endTime s e →
      b.status ≠ BStatus.pending ∧ b.status ≠ BStatus.competing)
    (hactive : ∃ b ∈ db.bookings, b.carId = carId ∧ b.status = BStatus.active ∧
      overlapQ b.startTime b.endTime s e) :
    ∃ db', request_booking db uid carId s e offer now = Except.ok db' ∧
      db'.auctions = db.auctions ∧ db'.bids = db.bids ∧
      (∃ nb ∈ db'.bookings, nb.id = db.nextId ∧ nb.status = BStatus.pending) ∧
      ∃ db'', approve_booking db' db.nextId = Except.ok db'' ∧
        (∀ b'' ∈ db''.bookings, b''.id = db.nextId → b''.status = BStatus.confirmed) ∧
        (∀ b ∈ db.bookings, b.status = BStatus.active →
          ∃ b'' ∈ db''.bookings, b''.id = b.id ∧ b''.status = BStatus.active) := by
  have hany : db.bookings.any (fun b => decide
      (b.status = BStatus.confirmed ∧ b.carId = carId ∧
       overlapQ b.startTime b.endTime s e)) = false := by
    rw [List.any_eq_false]
    intro b hb
    simp only [decide_eq_true_iff, not_and]
    intro h1 h2 h3
    exact hnoconf b hb h2 h3 h1
  have hconf_nil : get_conflicting_bookings (addBooking db uid carId s e offer)
      carId s e (some db.nextId) = [] := by
    rw [get_conflicting_bookings, List.filter_eq_nil_iff]
    intro b hb
    simp only [addBooking, List.mem_append, List.mem_singleton] at hb
    simp only [decide_eq_true_iff, not_and]
    intro h1 h2 h3
    rcases hb with hb | hb
    · intro _
      rcases h2 with h2 | h2
      · exact (hnocont b hb h1 h3).1 h2
      · exact (hnocont b hb h1 h3).2 h2
    · intro hall
      exact hall db.nextId rfl (by rw [hb])
  have hrun : request_booking db uid carId s e offer now =
      Except.ok (addBooking db uid carId s e offer) := by
    unfold request_booking
    rw [hu, hc]
    simp [hnb, not_le.mpr hse, not_lt.mpr htr, hact, hany, hconf_nil]
    exact fun x hx h1 h2 h3 => hnoconf x hx h2 h3 h1
  have hget : getBooking (addBooking db uid carId s e offer) db.nextId =
      some { id := db.nextId, userId := uid, carId := carId, startTime := s,
             endTime := e, offerPrice := offer, status := BStatus.pending } := by
    unfold getBooking addBooking
    rw [List.find?_append]
    have h1 : db.bookings.find? (fun b => decide (b.id = db.nextId)) = none := by
      rw [List.find?_eq_none]
      intro b hb
      simp [hfresh b hb]
    rw [h1]
    simp
  have happrove : approve_booking (addBooking db uid carId s e offer) db.nextId =
      Except.ok (setBookingStatus (addBooking db uid carId s e offer) db.nextId
        BStatus.confirmed) := by
    unfold approve_booking
    rw [hget]
    rfl
  refine ⟨_, hrun, rfl, rfl, ?_, _, happrove, ?_, ?_⟩
  · refine ⟨{ id := db.nextId, userId := uid, carId := carId, startTime := s,
              endTime := e, offerPrice := offer, status := BStatus.pending }, ?_, rfl, rfl⟩
    simp [addBooking]
  · intro b'' hb'' hid
    exact setBookingStatus_status _ _ _ b'' hb'' hid
  · intro b hb hst
    refine ⟨b, ?_, rfl, hst⟩
    have hmem1 : b ∈ (addBooking db uid carId s e offer).bookings := by
      show b ∈ db.bookings ++ [_]
      exact List.mem_append_left _ hb
    have heq : (fun x => if x.id = db.nextId then { x with status := BStatus.confirmed } else x) b
        = b := by
      simp [hfresh b hb]
    have hmem2 := List.mem_map_of_mem
      (fun x => if x.id = db.nextId then { x with status := BStatus.confirmed } else x) hmem1
    rw [heq] at hmem2
    exact hmem2

/-- Witness for C10 at a concrete input: requesting `[5, 15)` on car 2
succeeds as `pending` with no auction, and approval confirms it while
booking 3 stays `active`. -/
theorem C10_witness :
    ∃ db', request_booking dbC10 1 2 5 15 120 0 = Except.ok db' ∧
      db'.auctions = dbC10.auctions ∧ db'.bids = dbC10.bids ∧
      (∃ nb ∈ db'.bookings, nb.id = dbC10.nextId ∧ nb.status = BStatus.pending) ∧
      ∃ db'', approve_booking db' dbC10.nextId = Except.ok db'' ∧
        (∀ b'' ∈ db''.bookings, b''.id = dbC10.nextId → b''.status = BStatus.confirmed) ∧
        (∀ b ∈ dbC10.bookings, b.status = BStatus.active →
          ∃ b'' ∈ db''.bookings, b''.id = b.id ∧ b''.status = BStatus.active) :=
  C10_active_overlap_not_blocking dbC10 1
    { id := 1, totalRides := 0, avgRating := 0, damageCount := 0,
      rashCount := 0, trustScore := 50, isBlocked := false }
    2 5 15 120 0 { id := 2, isActive := true }
    (by decide) (by decide) (by decide) (by decide) (by decide) (by decide)
    (by decide) (by decide) (by decide)
    ⟨{ id := 3, userId := 7, carId := 2, startTime := 0, endTime := 10,
       offerPrice := 100, status := BStatus.active },
     by decide, by decide, by decide, by constructor <;> decide⟩

/-! ## C2: reservation lifecycle -/

/-- Counterexample to C2: approving a pending booking moves it
`pending → confirmed`, a transition absent from the claimed lifecycle. -/
theorem C2_counterexample :
    ¬ (∀ b ∈ dbC2.bookings, ∀ b' ∈ (runOp (Op.approve 1) dbC2).bookings,
        b'.id = b.id → (b'.status = b.status ∨ specStep b.status b'.status = true)) := by
  decide

/-- `codeStep` allows writing `completed` from any status. -/
theorem codeStep_completed (old : BStatus) : codeStep old BStatus.completed = true := rfl

/-- `codeStep` allows writing `confirmed` from any status. -/
theorem codeStep_confirmed (old : BStatus) : codeStep old BStatus.confirmed = true := rfl

/-- `codeStep` allows writing `lost_auction` from any status. -/
theorem codeStep_lost (old : BStatus) : codeStep old BStatus.lostAuction = true := rfl

/-- Evolution is reflexive. -/
theorem StatusEvol_refl (db : DB) : StatusEvol db db :=
  fun b hb => ⟨b, hb, rfl, Or.inl rfl⟩

/-- A single status write whose value is `codeStep`-allowed for every
booking carrying the targeted id is an evolution. -/
theorem StatusEvol_setBookingStatus (db : DB) (i : Nat) (v : BStatus)
    (h : ∀ b ∈ db.bookings, b.id = i → codeStep b.status v = true) :
    StatusEvol db (setBookingStatus db i v) := by
  intro b hb
  refine ⟨(fun x => if x.id = i then { x with status := v } else x) b,
    List.mem_map_of_mem _ hb, ?_, ?_⟩
  · by_cases hid : b.id = i <;> simp [hid]
  · by_cases hid : b.id = i
    · simp only [if_pos hid]
      exact Or.inr (h b hb hid)
    · simp [hid]

/-- An offer write never changes a status: it is an evolution. -/
theorem StatusEvol_setBookingOffer (db : DB) (i : Nat) (p : Rat) :
    StatusEvol db (setBookingOffer db i p) := by
  intro b hb
  refine ⟨(fun x => if x.id = i then { x with offerPrice := p } else x) b,
    List.mem_map_of_mem _ hb, ?_, ?_⟩
  · by_cases hid : b.id = i <;> simp [hid]
  · by_cases hid : b.id = i <;> simp [hid]

/-- With duplicate-free booking ids, the booking found by id is the only
member carrying that id. -/
theorem getBooking_unique (db : DB) (i : Nat) (bk : Booking)
    (hN : (db.bookings.map Booking.id).Nodup)
    (hfind : getBooking db i = some bk) :
    ∀ b ∈ db.bookings, b.id = i → b = bk := by
  intro b hb hid
  have hbk : bk ∈ db.bookings := List.mem_of_find?_eq_some hfind
  have hbid : bk.id = i := by simpa using List.find?_some hfind
  exact key_unique Booking.id hN hb hbk (by rw [hid, hbid])

/-- The booking-status fold of `close_auction` only rewrites statuses to
`confirmed` or `lost_auction`. -/
theorem closeFold_evol (L : List Bid) (w : Bid) (db : DB) :
    ∀ b ∈ db.bookings, ∃ b' ∈ (L.foldl (fun d bid => setBookingStatus d bid.bookingId
      (if bid.id = w.id then BStatus.confirmed else BStatus.lostAuction)) db).bookings,
      b'.id = b.id ∧ (b'.status = b.status ∨ b'.status = BStatus.confirmed ∨
        b'.status = BStatus.lostAuction) := by
  induction L generalizing db with
  | nil => exact fun b hb => ⟨b, hb, rfl, Or.inl rfl⟩
  | cons x t ih =>
    intro b hb
    have hb1 : (fun y => if y.id = x.bookingId then
        { y with status := if x.id = w.id then BStatus.confirmed else BStatus.lostAuction }
        else y) b ∈ (setBookingStatus db x.bookingId
          (if x.id = w.id then BStatus.confirmed else BStatus.lostAuction)).bookings :=
      List.mem_map_of_mem _ hb
    obtain ⟨b', hb', hid, hst⟩ := ih _ _ hb1
    refine ⟨b', hb', ?_, ?_⟩
    · rw [hid]
      by_cases hcase : b.id = x.bookingId <;> simp [hcase]
    · rcases hst with hst | hst
      · by_cases hcase : b.id = x.bookingId
        · rw [hst]
          simp only [if_pos hcase]
          by_cases hxw : x.id = w.id <;> simp [hxw]
        · rw [hst]
          simp [hcase]
      · exact Or.inr hst

/-- The escalation fold of `request_booking` only rewrites statuses to
`competing`, and only on bookings whose id appears among the conflicts. -/
theorem escalateFold_evol (aid : Nat) (L : List Booking) (db : DB) :
    ∀ b ∈ db.bookings, ∃ b' ∈ (L.foldl (escalateStep aid) db).bookings,
      b'.id = b.id ∧ (b'.status = b.status ∨
        (b'.status = BStatus.competing ∧ ∃ c ∈ L, c.id = b.id)) := by
  induction L generalizing db with
  | nil => exact fun b hb => ⟨b, hb, rfl, Or.inl rfl⟩
  | cons c t ih =>
    intro b hb
    cases hbid : getBid db c.userId aid with
    | some bid =>
      have hstep : escalateStep aid db c = db := by
        unfold escalateStep
        rw [hbid]
      have hfold : (c :: t).foldl (escalateStep aid) db = t.foldl (escalateStep aid) db := by
        rw [List.foldl_cons, hstep]
      rw [hfold]
      obtain ⟨b', hb', hid, hrel⟩ := ih db b hb
      refine ⟨b', hb', hid, ?_⟩
      rcases hrel with hrel | ⟨hcomp, c', hc', hcid⟩
      · exact Or.inl hrel
      · exact Or.inr ⟨hcomp, c', List.mem_cons_of_mem _ hc', hcid⟩
    | none =>
      have hstep : escalateStep aid db c = setBookingStatus
          (addBid db aid c.userId c.id c.offerPrice
            (((getUser db c.userId).map User.trustScore).getD 50)) c.id BStatus.competing := by
        unfold escalateStep
        rw [hbid]
      have hfold : (c :: t).foldl (escalateStep aid) db = t.foldl (escalateStep aid)
          (setBookingStatus (addBid db aid c.userId c.id c.offerPrice
            (((getUser db c.userId).map User.trustScore).getD 50)) c.id BStatus.competing) := by
        rw [List.foldl_cons, hstep]
      rw [hfold]
      have hb1 : (fun y => if y.id = c.id then { y with status := BStatus.competing } else y) b
          ∈ (setBookingStatus (addBid db aid c.userId c.id c.offerPrice
            (((getUser db c.userId).map User.trustScore).getD 50)) c.id
              BStatus.competing).bookings :=
        List.mem_map_of_mem _ hb
      obtain ⟨b', hb', hid, hrel⟩ := ih _ _ hb1
      simp only [] at hid hrel
      by_cases hcase : b.id = c.id
      · refine ⟨b', hb', by rw [hid]; simp [hcase], ?_⟩
        rcases hrel with hrel | ⟨hcomp, c', hc', hcid⟩
        · rw [if_pos hcase] at hrel
          exact Or.inr ⟨hrel, c, List.mem_cons_self _ _, hcase.symm⟩
        · rw [if_pos hcase] at hcid
          exact Or.inr ⟨hcomp, c', List.mem_cons_of_mem _ hc', hcid⟩
      · rw [if_neg hcase] at hid hrel
        refine ⟨b', hb', hid, ?_⟩
        rcases hrel with hrel | ⟨hcomp, c', hc', hcid⟩
        · exact Or.inl hrel
        · exact Or.inr ⟨hcomp, c', List.mem_cons_of_mem _ hc', hcid⟩

/-- Booking ids stay duplicate-free after inserting the freshly numbered
booking. -/
theorem addBooking_nodup (db : DB) (hwf : WFbk db) (uid carId : Nat) (s e offer : Rat) :
    ((addBooking db uid carId s e offer).bookings.map Booking.id).Nodup := by
  show ((db.bookings ++ [_]).map Booking.id).Nodup
  rw [List.map_append]
  rw [List.nodup_append]
  refine ⟨hwf.1, List.nodup_singleton _, ?_⟩
  intro x hx
  simp only [List.mem_map] at hx
  obtain ⟨b, hb, rfl⟩ := hx
  simp only [List.map_cons, List.map_nil, List.mem_singleton]
  exact Nat.ne_of_lt (hwf.2 b hb)

/-- Any database whose bookings agree with the escalation fold of
`request_booking` evolves correctly once the new booking is marked
`competing`. -/
theorem request_evol_aux (db : DB) (hwf : WFbk db) (uid carId : Nat) (s e offer : Rat)
    (aid : Nat) (db2 db4 : DB)
    (h2 : db2.bookings = (addBooking db uid carId s e offer).bookings)
    (h4 : db4.bookings = ((get_conflicting_bookings (addBooking db uid carId s e offer)
        carId s e (some db.nextId)).foldl (escalateStep aid) db2).bookings) :
    StatusEvol db (setBookingStatus db4 db.nextId BStatus.competing) := by
  intro b hb
  have hfresh : b.id ≠ db.nextId := Nat.ne_of_lt (hwf.2 b hb)
  have hb1 : b ∈ db2.bookings := by
    rw [h2]
    exact List.mem_append_left _ hb
  obtain ⟨b', hb', hid, hrel⟩ := escalateFold_evol aid _ db2 b hb1
  have hbid' : b'.id ≠ db.nextId := by rw [hid]; exact hfresh
  have hb4 : b' ∈ db4.bookings := by rw [h4]; exact hb'
  refine ⟨(fun x => if x.id = db.nextId then { x with status := BStatus.competing } else x) b',
    List.mem_map_of_mem _ hb4, ?_, ?_⟩
  · simp only [if_neg hbid']
    exact hid
  · simp only [if_neg hbid']
    rcases hrel with hrel | ⟨hcomp, c, hc, hcid⟩
    · exact Or.inl hrel
    · right
      rw [hcomp]
      have hcmem := (List.mem_filter.mp hc).1
      have hcprop := (List.mem_filter.mp hc).2
      rw [decide_eq_true_iff] at hcprop
      obtain ⟨-, hcst, -, -⟩ := hcprop
      have hnd := addBooking_nodup db hwf uid carId s e offer
      have hbin : b ∈ (addBooking db uid carId s e offer).bookings :=
        List.mem_append_left _ hb
      have hcb : c = b := key_unique Booking.id hnd hcmem hbin hcid
      rw [hcb] at hcst
      rcases hcst with h | h <;> simp [codeStep, h]

/-- `approve` evolves booking statuses along `codeStep`. -/
theorem evol_approve (db : DB) (i : Nat) : StatusEvol db (runOp (Op.approve i) db) := by
  have hrun : runOp (Op.approve i) db = (match approve_booking db i with
      | Except.ok d => d
      | Except.error _ => db) := rfl
  rw [hrun]
  cases hga : getBooking db i with
  | none =>
    have h : approve_booking db i = Except.error Err.notFound := by
      unfold approve_booking
      rw [hga]
    rw [h]
    exact StatusEvol_refl db
  | some bk =>
    by_cases hst : bk.status = BStatus.pending
    · have h : approve_booking db i = Except.ok (setBookingStatus db i BStatus.confirmed) := by
        unfold approve_booking
        rw [hga]
        simp [hst]
      rw [h]
      exact StatusEvol_setBookingStatus db i _ (fun b hb hid => codeStep_confirmed _)
    · have h : approve_booking db i = Except.error Err.invalidState := by
        unfold approve_booking
        rw [hga]
        simp [hst]
      rw [h]
      exact StatusEvol_refl db

/-- `reject` evolves booking statuses along `codeStep`. -/
theorem evol_reject (db : DB) (i : Nat) (hwf : WFbk db) :
    StatusEvol db (runOp (Op.reject i) db) := by
  have hrun : runOp (Op.reject i) db = (match reject_booking db i with
      | Except.ok d => d
      | Except.error _ => db) := rfl
  rw [hrun]
  cases hga : getBooking db i with
  | none =>
    have h : reject_booking db i = Except.error Err.notFound := by
      unfold reject_booking
      rw [hga]
    rw [h]
    exact StatusEvol_refl db
  | some bk =>
    by_cases hst : bk.status = BStatus.pending ∨ bk.status = BStatus.competing
    · have h : reject_booking db i = Except.ok (setBookingStatus db i BStatus.rejected) := by
        unfold reject_booking
        rw [hga]
        simp [hst]
      rw [h]
      refine StatusEvol_setBookingStatus db i _ ?_
      intro b hb hid
      have hb_eq : b = bk := getBooking_unique db i bk hwf.1 hga b hb hid
      rw [hb_eq]
      rcases hst with h1 | h1 <;> simp [codeStep, h1]
    · have h : reject_booking db i = Except.error Err.invalidState := by
        unfold reject_booking
        rw [hga]
        simp [hst]
      rw [h]
      exact StatusEvol_refl db

/-- `cancel` evolves booking statuses along `codeStep`. -/
theorem evol_cancel (db : DB) (uid i : Nat) (now : Rat) (hwf : WFbk db) :
    StatusEvol db (runOp (Op.cancel uid i now) db) := by
  have hrun : runOp (Op.cancel uid i now) db = (match cancel_booking db uid i now with
      | Except.ok d => d
      | Except.error _ => db) := rfl
  rw [hrun]
  cases hu : getUser db uid with
  | none =>
    have h : cancel_booking db uid i now = Except.error Err.notFound := by
      unfold cancel_booking
      rw [hu]
    rw [h]
    exact StatusEvol_refl db
  | some u =>
    by_cases hbl : u.isBlocked = true
    · have h : cancel_booking db uid i now = Except.error Err.blocked := by
        unfold cancel_booking
        rw [hu]
        simp [hbl]
      rw [h]
      exact StatusEvol_refl db
    · cases hga : getBooking db i with
      | none =>
        have h : cancel_booking db uid i now = Except.error Err.notFound := by
          unfold cancel_booking
          rw [hu, hga]
          simp [hbl]
        rw [h]
        exact StatusEvol_refl db
      | some bk =>
        by_cases hown : bk.userId = uid
        · by_cases hst : bk.status = BStatus.pending ∨ bk.status = BStatus.competing ∨
              bk.status = BStatus.confirmed
          · have hguard : ∀ b ∈ db.bookings, b.id = i → codeStep b.status BStatus.cancelled = true := by
              intro b hb hid
              have hb_eq : b = bk := getBooking_unique db i bk hwf.1 hga b hb hid
              rw [hb_eq]
              rcases hst with h1 | h1 | h1 <;> simp [codeStep, h1]
            by_cases hlate : (bk.startTime - now) / 3600 < 24 ∧ bk.status = BStatus.confirmed
            · have h : cancel_booking db uid i now = Except.ok
                  (setBookingStatus (setUserTrust db uid
                    (max 0 (u.trustScore - LATE_CANCEL_PENALTY))) i BStatus.cancelled) := by
                unfold cancel_booking
                rw [hu, hga]
                simp [hbl, hown, hst, hlate]
              rw [h]
              exact StatusEvol_setBookingStatus
                (setUserTrust db uid (max 0 (u.trustScore - LATE_CANCEL_PENALTY))) i _ hguard
            · have h : cancel_booking db uid i now = Except.ok
                  (setBookingStatus db i BStatus.cancelled) := by
                unfold cancel_booking
                rw [hu, hga]
                simp [hbl, hown, hst, hlate]
              rw [h]
              exact StatusEvol_setBookingStatus db i _ hguard
          · have h : cancel_booking db uid i now = Except.error Err.invalidState := by
              unfold cancel_booking
              rw [hu, hga]
              simp [hbl, hown, hst]
            rw [h]
            exact StatusEvol_refl db
        · have h : cancel_booking db uid i now = Except.error Err.forbidden := by
            unfold cancel_booking
            rw [hu, hga]
            simp [hbl, hown]
          rw [h]
          exact StatusEvol_refl db

/-- `placeBid` evolves booking statuses along `codeStep` (it only ever
touches an offer price). -/
theorem evol_bid (db : DB) (uid aid : Nat) (offer : Rat) :
    StatusEvol db (runOp (Op.bid uid aid offer) db) := by
  have hrun : runOp (Op.bid uid aid offer) db = (match place_bid db uid aid offer with
      | Except.ok d => d
      | Except.error _ => db) := rfl
  rw [hrun]
  cases hu : getUser db uid with
  | none =>
    have h : place_bid db uid aid offer = Except.error Err.notFound := by
      unfold place_bid
      rw [hu]
    rw [h]
    exact StatusEvol_refl db
  | some u =>
    by_cases hbl : u.isBlocked = true
    · have h : place_bid db uid aid offer = Except.error Err.blocked := by
        unfold place_bid
        rw [hu]
        simp [hbl]
      rw [h]
      exact StatusEvol_refl db
    · by_cases hpos : 0 < offer
      · cases ha : getAuction db aid with
        | none =>
          have h : place_bid db uid aid offer = Except.error Err.notFound := by
            unfold place_bid
            rw [hu, ha]
            simp [hbl, hpos]
          rw [h]
          exact StatusEvol_refl db
        | some a =>
          by_cases hact : a.status = AStatus.active
          · cases hbid : getBid db uid aid with
            | none =>
              have h : place_bid db uid aid offer = Except.error Err.noExistingStake := by
                unfold place_bid
                rw [hu, ha]
                simp [hbl, hpos, hact, hbid]
              rw [h]
              exact StatusEvol_refl db
            | some bid =>
              by_cases hle : offer ≤ bid.offerPrice
              · have h : place_bid db uid aid offer = Except.error Err.bidMustIncrease := by
                  unfold place_bid
                  rw [hu, ha]
                  simp [hbl, hpos, hact, hbid, hle]
                rw [h]
                exact StatusEvol_refl db
              · have h : place_bid db uid aid offer = Except.ok
                    (setBookingOffer (setBidOffer db bid.id offer) bid.bookingId offer) := by
                  unfold place_bid
                  rw [hu, ha]
                  simp [hbl, hpos, hact, hbid, hle]
                rw [h]
                exact StatusEvol_setBookingOffer (setBidOffer db bid.id offer) bid.bookingId offer
          · have h : place_bid db uid aid offer = Except.error Err.auctionNotActive := by
              unfold place_bid
              rw [hu, ha]
              simp [hbl, hpos, hact]
            rw [h]
            exact StatusEvol_refl db
      · have h : place_bid db uid aid offer = Except.error Err.invalidOffer := by
          unfold place_bid
          rw [hu]
          simp [hbl, hpos]
        rw [h]
        exact StatusEvol_refl db

/-- `startRide` evolves booking statuses along `codeStep`. -/
theorem evol_start (db : DB) (i : Nat) (hwf : WFbk db) :
    StatusEvol db (runOp (Op.start i) db) := by
  have hrun : runOp (Op.start i) db = (match start_ride db i with
      | Except.ok d => d
      | Except.error _ => db) := rfl
  rw [hrun]
  cases hga : getBooking db i with
  | none =>
    have h : start_ride db i = Except.error Err.notFound := by
      unfold start_ride
      rw [hga]
    rw [h]
    exact StatusEvol_refl db
  | some bk =>
    by_cases hst : bk.status = BStatus.confirmed
    · cases hride : getRideByBooking db i with
      | some r =>
        have h : start_ride db i = Except.error Err.alreadyStarted := by
          unfold start_ride
          rw [hga]
          simp [hst, hride]
        rw [h]
        exact StatusEvol_refl db
      | none =>
        have h : start_ride db i = Except.ok
            (setBookingStatus (addRide db i) i BStatus.active) := by
          unfold start_ride
          rw [hga]
          simp [hst, hride]
        rw [h]
        refine StatusEvol_setBookingStatus (addRide db i) i _ ?_
        intro b hb hid
        have hb_eq : b = bk := getBooking_unique db i bk hwf.1 hga b hb hid
        rw [hb_eq, hst]
        rfl
    · have h : start_ride db i = Except.error Err.invalidState := by
        unfold start_ride
        rw [hga]
        simp [hst]
      rw [h]
      exact StatusEvol_refl db

/-- `completeRide` evolves booking statuses along `codeStep` (`completed`
is written without a booking-status guard). -/
theorem evol_complete (db : DB) (i : Nat) : StatusEvol db (runOp (Op.complete i) db) := by
  have hrun : runOp (Op.complete i) db = (match complete_ride db i with
      | Except.ok d => d
      | Except.error _ => db) := rfl
  rw [hrun]
  cases hr : getRide db i with
  | none =>
    have h : complete_ride db i = Except.error Err.notFound := by
      unfold complete_ride
      rw [hr]
    rw [h]
    exact StatusEvol_refl db
  | some r =>
    by_cases hst : r.status = RStatus.active
    · have h : complete_ride db i = Except.ok
          (setBookingStatus (setRideStatus db i RStatus.completed) r.bookingId
            BStatus.completed) := by
        unfold complete_ride
        rw [hr]
        simp [hst]
      rw [h]
      exact StatusEvol_setBookingStatus (setRideStatus db i RStatus.completed) r.bookingId _
        (fun b hb hid => codeStep_completed _)
    · have h : complete_ride db i = Except.error Err.invalidState := by
        unfold complete_ride
        rw [hr]
        simp [hst]
      rw [h]
      exact StatusEvol_refl db

/-- `rateRide` evolves booking statuses along `codeStep` (it never touches
a booking). -/
theorem evol_rate (db : DB) (i : Nat) (r : RatingInput) :
    StatusEvol db (runOp (Op.rate i r) db) := by
  have hrun : runOp (Op.rate i r) db = (match rate_ride db i r with
      | Except.ok d => d
      | Except.error _ => db) := rfl
  rw [hrun]
  cases hr : getRide db i with
  | none =>
    have h : rate_ride db i r = Except.error Err.notFound := by
      unfold rate_ride
      rw [hr]
    rw [h]
    exact StatusEvol_refl db
  | some ride =>
    by_cases hst : ride.status = RStatus.completed
    · cases hex : getRatingByRide db i with
      | some rec =>
        have h : rate_ride db i r = Except.error Err.alreadyRated := by
          unfold rate_ride
          rw [hr]
          simp [hst, hex]
        rw [h]
        exact StatusEvol_refl db
      | none =>
        cases hbk : getBooking (addRating db i r) ride.bookingId with
        | none =>
          have h : rate_ride db i r = Except.ok (addRating db i r) := by
            unfold rate_ride
            rw [hr]
            simp [hst, hex, hbk]
          rw [h]
          exact fun b hb => ⟨b, hb, rfl, Or.inl rfl⟩
        | some bk =>
          cases hus : getUser (addRating db i r) bk.userId with
          | none =>
            have h : rate_ride db i r = Except.ok (addRating db i r) := by
              unfold rate_ride
              rw [hr]
              simp [hst, hex, hbk, hus]
            rw [h]
            exact fun b hb => ⟨b, hb, rfl, Or.inl rfl⟩
          | some u =>
            have h : rate_ride db i r = Except.ok (rateResult db i r bk u) := by
              unfold rate_ride rateResult
              rw [hr]
              simp [hst, hex, hbk, hus]
            rw [h]
            exact fun b hb => ⟨b, hb, rfl, Or.inl rfl⟩
    · have h : rate_ride db i r = Except.error Err.invalidState := by
        unfold rate_ride
        rw [hr]
        simp [hst]
      rw [h]
      exact StatusEvol_refl db

/-- `closeAuction` evolves booking statuses along `codeStep` (`confirmed`
and `lost_auction` are written without a booking-status guard). -/
theorem evol_close (db : DB) (aid : Nat) : StatusEvol db (runOp (Op.close aid) db) := by
  have hrun : runOp (Op.close aid) db = (match close_auction db aid with
      | Except.ok d => d
      | Except.error _ => db) := rfl
  rw [hrun]
  cases hres : close_auction db aid with
  | error e1 => exact StatusEvol_refl db
  | ok d =>
    unfold close_auction at hres
    cases ha : getAuction db aid with
    | none => rw [ha] at hres; cases hres
    | some a =>
      rw [ha] at hres
      simp only [] at hres
      by_cases hact : a.status = AStatus.active
      · rw [if_neg (by simp [hact])] at hres
        cases hbids : get_auction_bids db aid with
        | nil =>
          rw [hbids] at hres
          simp only [] at hres
          have hd : d = setAuctionStatus db aid AStatus.cancelled := by
            cases hres
            rfl
          subst hd
          exact fun b hb => ⟨b, hb, rfl, Or.inl rfl⟩
        | cons b0 rest =>
          rw [hbids] at hres
          simp only [] at hres
          cases hbids1 : get_auction_bids ((b0 :: rest).foldl
              (fun d bid => setBidFinal d bid.id (fscore bid)) db) aid with
          | nil => rw [hbids1] at hres; cases hres
          | cons c0 crest =>
            rw [hbids1] at hres
            have hd : d = (c0 :: crest).foldl (fun d bid =>
                setBookingStatus d bid.bookingId
                  (if bid.id = (pickWinner c0 crest).id then BStatus.confirmed
                   else BStatus.lostAuction))
                (setAuctionClosed ((b0 :: rest).foldl
                  (fun d bid => setBidFinal d bid.id (fscore bid)) db) aid
                  (pickWinner c0 crest).userId) := by
              cases hres
              rfl
            subst hd
            intro b hb
            have hb2 : b ∈ (setAuctionClosed ((b0 :: rest).foldl
                (fun d bid => setBidFinal d bid.id (fscore bid)) db) aid
                (pickWinner c0 crest).userId).bookings := by
              show b ∈ ((b0 :: rest).foldl
                (fun d bid => setBidFinal d bid.id (fscore bid)) db).bookings
              rw [foldFinal_bookings_eq]
              exact hb
            obtain ⟨b', hb', hid, hst⟩ :=
              closeFold_evol (c0 :: crest) (pickWinner c0 crest) _ b hb2
            refine ⟨b', hb', hid, ?_⟩
            rcases hst with h | h | h
            · exact Or.inl h
            · right
              rw [h]
              exact codeStep_confirmed _
            · right
              rw [h]
              exact codeStep_lost _
      · rw [if_pos (by simp [hact])] at hres
        cases hres

/-- `requestReservation` evolves booking statuses along `codeStep`. -/
theorem evol_request (db : DB) (uid carId : Nat) (s e offer now : Rat) (hwf : WFbk db) :
    StatusEvol db (runOp (Op.request uid carId s e offer now) db) := by
  have hrun : runOp (Op.request uid carId s e offer now) db =
      (match request_booking db uid carId s e offer now with
      | Except.ok d => d
      | Except.error _ => db) := rfl
  rw [hrun]
  cases hres : request_booking db uid carId s e offer now with
  | error e1 => exact StatusEvol_refl db
  | ok d =>
    unfold request_booking at hres
    cases hu : getUser db uid with
    | none => rw [hu] at hres; cases hres
    | some u =>
      rw [hu] at hres
      simp only [] at hres
      by_cases hbl : u.isBlocked = true
      · rw [if_pos hbl] at hres
        cases hres
      · rw [if_neg hbl] at hres
        by_cases hse : e ≤ s
        · rw [if_pos hse] at hres
          cases hres
        · rw [if_neg hse] at hres
          by_cases htr : u.trustScore < AUTO_REJECT_THRESHOLD ∨ u.isBlocked = true
          · rw [if_pos htr] at hres
            cases hres
          · rw [if_neg htr] at hres
            cases hc : getCar db carId with
            | none => rw [hc] at hres; cases hres
            | some car =>
              rw [hc] at hres
              simp only [] at hres
              by_cases hca : car.isActive = true
              · rw [if_neg (by simp [hca])] at hres
                by_cases hslot : (db.bookings.any (fun b => decide
                    (b.status = BStatus.confirmed ∧ b.carId = carId ∧
                     overlapQ b.startTime b.endTime s e))) = true
                · rw [if_pos hslot] at hres
                  cases hres
                · rw [if_neg hslot] at hres
                  by_cases hempty : (get_conflicting_bookings
                      (addBooking db uid carId s e offer) carId s e
                      (some db.nextId)).isEmpty = true
                  · rw [if_pos hempty] at hres
                    have hd : d = addBooking db uid carId s e offer := by
                      cases hres
                      rfl
                    subst hd
                    exact fun b hb => ⟨b, List.mem_append_left _ hb, rfl, Or.inl rfl⟩
                  · rw [if_neg hempty] at hres
                    cases hfa : find_active_auction_for_car
                        (addBooking db uid carId s e offer) carId s e with
                    | some a2 =>
                      rw [hfa] at hres
                      simp only [] at hres
                      cases hgb : getBid ((get_conflicting_bookings
                          (addBooking db uid carId s e offer) carId s e
                          (some db.nextId)).foldl (escalateStep a2.id)
                          (addBooking db uid carId s e offer)) uid a2.id with
                      | some bid2 =>
                        rw [hgb] at hres
                        have hd : d = setBookingStatus
                            ((get_conflicting_bookings (addBooking db uid carId s e offer)
                              carId s e (some db.nextId)).foldl (escalateStep a2.id)
                              (addBooking db uid carId s e offer))
                            db.nextId BStatus.competing := by
                          cases hres
                          rfl
                        subst hd
                        exact request_evol_aux db hwf uid carId s e offer a2.id _ _ rfl rfl
                      | none =>
                        rw [hgb] at hres
                        have hd : d = setBookingStatus
                            (addBid ((get_conflicting_bookings (addBooking db uid carId s e offer)
                              carId s e (some db.nextId)).foldl (escalateStep a2.id)
                              (addBooking db uid carId s e offer)) a2.id uid db.nextId offer
                              u.trustScore)
                            db.nextId BStatus.competing := by
                          cases hres
                          rfl
                        subst hd
                        exact request_evol_aux db hwf uid carId s e offer a2.id _ _ rfl rfl
                    | none =>
                      rw [hfa] at hres
                      simp only [] at hres
                      cases hgb : getBid ((get_conflicting_bookings
                          (addBooking db uid carId s e offer) carId s e
                          (some db.nextId)).foldl
                          (escalateStep (addBooking db uid carId s e offer).nextId)
                          (addAuction (addBooking db uid carId s e offer) carId s e
                            (now + AUCTION_DURATION_SECONDS))) uid
                          (addBooking db uid carId s e offer).nextId with
                      | some bid2 =>
                        rw [hgb] at hres
                        have hd : d = setBookingStatus
                            ((get_conflicting_bookings (addBooking db uid carId s e offer)
                              carId s e (some db.nextId)).foldl
                              (escalateStep (addBooking db uid carId s e offer).nextId)
                              (addAuction (addBooking db uid carId s e offer) carId s e
                                (now + AUCTION_DURATION_SECONDS)))
                            db.nextId BStatus.competing := by
                          cases hres
                          rfl
                        subst hd
                        exact request_evol_aux db hwf uid carId s e offer
                          (addBooking db uid carId s e offer).nextId
                          (addAuction (addBooking db uid carId s e offer) carId s e
                            (now + AUCTION_DURATION_SECONDS)) _ rfl rfl
                      | none =>
                        rw [hgb] at hres
                        have hd : d = setBookingStatus
                            (addBid ((get_conflicting_bookings (addBooking db uid carId s e offer)
                              carId s e (some db.nextId)).foldl
                              (escalateStep (addBooking db uid carId s e offer).nextId)
                              (addAuction (addBooking db uid carId s e offer) carId s e
                                (now + AUCTION_DURATION_SECONDS)))
                              (addBooking db uid carId s e offer).nextId uid db.nextId offer
                              u.trustScore)
                            db.nextId BStatus.competing := by
                          cases hres
                          rfl
                        subst hd
                        exact request_evol_aux db hwf uid carId s e offer
                          (addBooking db uid carId s e offer).nextId
                          (addAuction (addBooking db uid carId s e offer) carId s e
                            (now + AUCTION_DURATION_SECONDS)) _ rfl rfl
              · rw [if_pos (by simp [hca])] at hres
                cases hres

/-- C2 amended: every operation rewrites booking statuses only along the
transition relation the code enforces (`codeStep`): escalation writes
`competing` only over `pending`/`competing`; `reject` writes `rejected`
only over `pending`/`competing`; `cancel` writes `cancelled` only over
`pending`/`competing`/`confirmed`; `startRide` writes `active` only over
`confirmed`; while `approve` (guarded `pending`), `closeAuction`
(`confirmed`/`lost_auction`, unguarded on the reservation) and
`completeRide` (`completed`, unguarded on the reservation) can land on
those statuses from any prior status the state can reach. -/
theorem C2_amended (op : Op) (db : DB) (hwf : WFbk db) :
    ∀ b ∈ db.bookings, ∃ b' ∈ (runOp op db).bookings,
      b'.id = b.id ∧ (b'.status = b.status ∨ codeStep b.status b'.status = true) := by
  cases op with
  | request uid carId s e offer now => exact evol_request db uid carId s e offer now hwf
  | approve i => exact evol_approve db i
  | reject i => exact evol_reject db i hwf
  | cancel uid i now => exact evol_cancel db uid i now hwf
  | bid uid aid offer => exact evol_bid db uid aid offer
  | close aid => exact evol_close db aid
  | start i => exact evol_start db i hwf
  | complete i => exact evol_complete db i
  | rate i r => exact evol_rate db i r

/-- Witness for the amended C2 at a concrete input: approving the pending
booking of `dbC2` yields a booking with the same id whose status moved
along `codeStep`. -/
theorem C2_amended_witness :
    ∃ b' ∈ (runOp (Op.approve 1) dbC2).bookings,
      b'.id = 1 ∧ (b'.status = BStatus.pending ∨
        codeStep BStatus.pending b'.status = true) :=
  C2_amended (Op.approve 1) dbC2 (by decide)
    { id := 1, userId := 1, carId := 1, startTime := 0, endTime := 10,
      offerPrice := 100, status := BStatus.pending } (by decide)

/-! ## C1: auction closing -/

/-- Inserting into the descending sort permutes. -/
theorem insOffer_perm (b : Bid) (l : List Bid) : (insOffer b l).Perm (b :: l) := by
  induction l with
  | nil => exact List.Perm.refl _
  | cons c cs ih =>
    unfold insOffer
    by_cases h : c.offerPrice ≤ b.offerPrice
    · rw [if_pos h]
    · rw [if_neg h]
      exact (List.Perm.cons c ih).trans (List.Perm.swap b c cs)

/-- The descending sort of `get_auction_bids` permutes its input. -/
theorem sortOfferDesc_perm (l : List Bid) : (sortOfferDesc l).Perm l := by
  induction l with
  | nil => exact List.Perm.refl _
  | cons b bs ih =>
    unfold sortOfferDesc
    exact (insOffer_perm b (sortOfferDesc bs)).trans (List.Perm.cons b ih)

/-- Insertion commutes with an offer-preserving map. -/
theorem insOffer_map (f : Bid → Bid) (hf : ∀ b, (f b).offerPrice = b.offerPrice)
    (b : Bid) (l : List Bid) : insOffer (f b) (l.map f) = (insOffer b l).map f := by
  induction l with
  | nil => rfl
  | cons c cs ih =>
    simp only [List.map_cons, insOffer, hf]
    by_cases h : c.offerPrice ≤ b.offerPrice
    · simp [h]
    · simp [h, ih]

/-- The descending sort commutes with an offer-preserving map. -/
theorem sortOfferDesc_map (f : Bid → Bid) (hf : ∀ b, (f b).offerPrice = b.offerPrice)
    (l : List Bid) : sortOfferDesc (l.map f) = (sortOfferDesc l).map f := by
  induction l with
  | nil => rfl
  | cons b bs ih =>
    unfold sortOfferDesc
    rw [List.map_cons]
    show insOffer (f b) (sortOfferDesc (bs.map f)) = _
    rw [ih, insOffer_map f hf]

/-- Python's `max` over a nonempty list returns a member. -/
theorem pickWinner_mem (h : Bid) (t : List Bid) : pickWinner h t ∈ h :: t := by
  induction t generalizing h with
  | nil => simp [pickWinner]
  | cons b t ih =>
    have hstep : pickWinner h (b :: t) =
        pickWinner (if scoreKey h < scoreKey b then b else h) t := rfl
    rw [hstep]
    by_cases hc : scoreKey h < scoreKey b
    · rw [if_pos hc]
      rcases List.mem_cons.mp (ih b) with heq | hm
      · rw [heq]
        exact List.mem_cons_of_mem _ (List.mem_cons_self _ _)
      · exact List.mem_cons_of_mem _ (List.mem_cons_of_mem _ hm)
    · rw [if_neg hc]
      rcases List.mem_cons.mp (ih h) with heq | hm
      · rw [heq]
        exact List.mem_cons_self _ _
      · exact List.mem_cons_of_mem _ (List.mem_cons_of_mem _ hm)

/-- Python's `max` over a nonempty list attains the maximal key. -/
theorem pickWinner_max (h : Bid) (t : List Bid) :
    ∀ c ∈ h :: t, scoreKey c ≤ scoreKey (pickWinner h t) := by
  induction t generalizing h with
  | nil =>
    intro c hc
    rcases List.mem_cons.mp hc with heq | habs
    · rw [heq]
      exact le_refl _
    · cases habs
  | cons b t ih =>
    intro c hc
    have hstep : pickWinner h (b :: t) =
        pickWinner (if scoreKey h < scoreKey b then b else h) t := rfl
    rw [hstep]
    have hhead : scoreKey h ≤ scoreKey (if scoreKey h < scoreKey b then b else h) := by
      by_cases hcmp : scoreKey h < scoreKey b
      · rw [if_pos hcmp]
        exact le_of_lt hcmp
      · rw [if_neg hcmp]
    have hb : scoreKey b ≤ scoreKey (if scoreKey h < scoreKey b then b else h) := by
      by_cases hcmp : scoreKey h < scoreKey b
      · rw [if_pos hcmp]
      · rw [if_neg hcmp]
        exact not_lt.mp hcmp
    have hrec := ih (if scoreKey h < scoreKey b then b else h)
    rcases List.mem_cons.mp hc with heq | hc2
    · rw [heq]
      exact le_trans hhead (hrec _ (List.mem_cons_self _ _))
    · rcases List.mem_cons.mp hc2 with heq | hc3
      · rw [heq]
        exact le_trans hb (hrec _ (List.mem_cons_self _ _))
      · exact hrec c (List.mem_cons_of_mem _ hc3)

/-- Characterization of the final-score fold of `close_auction`: with
duplicate-free bid ids, every bid whose id appears in the fold list gets
the final score of its unique entry; others are untouched. -/
theorem foldFinal_bids (L : List Bid) (db : DB) (hL : (L.map Bid.id).Nodup) :
    (L.foldl (fun d bid => setBidFinal d bid.id (fscore bid)) db).bids
    = db.bids.map (fun b =>
        match L.find? (fun x => decide (x.id = b.id)) with
        | some x => { b with finalScore := some (fscore x) }
        | none => b) := by
  induction L generalizing db with
  | nil => simp
  | cons x t ih =>
    rw [List.map_cons, List.nodup_cons] at hL
    rw [List.foldl_cons, ih _ hL.2]
    have hbid : (setBidFinal db x.id (fscore x)).bids = db.bids.map
        (fun b => if b.id = x.id then { b with finalScore := some (fscore x) } else b) := rfl
    rw [hbid, List.map_map]
    apply List.map_congr_left
    intro b _
    simp only [Function.comp]
    by_cases hx : b.id = x.id
    · have h1 : (x :: t).find? (fun y => decide (y.id = b.id)) = some x :=
        List.find?_cons_of_pos _ (by simp [hx])
      have h2 : t.find? (fun y => decide (y.id = b.id)) = none := by
        rw [List.find?_eq_none]
        intro y hy
        simp only [decide_eq_true_iff]
        intro hyb
        apply hL.1
        have hxy : y.id = x.id := by rw [hyb, hx]
        rw [← hxy]
        exact List.mem_map_of_mem Bid.id hy
      rw [h1]
      rw [hx] at h2
      simp [hx, h2]
    · have h1 : (x :: t).find? (fun y => decide (y.id = b.id)) =
          t.find? (fun y => decide (y.id = b.id)) :=
        List.find?_cons_of_neg _ (by simp; exact fun hc => hx hc.symm)
      rw [h1]
      simp only [if_neg hx]

/-- Characterization of the booking-status fold of `close_auction`: with
duplicate-free booking ids among the bids, every booking linked to a bid
in the list gets `confirmed` when that bid is the winner and
`lost_auction` otherwise; other bookings are untouched. -/
theorem foldStatus_bookings_char (L : List Bid) (w : Bid) (db : DB)
    (hL : (L.map Bid.bookingId).Nodup) :
    (L.foldl (fun d bid => setBookingStatus d bid.bookingId
      (if bid.id = w.id then BStatus.confirmed else BStatus.lostAuction)) db).bookings
    = db.bookings.map (fun bk =>
        match L.find? (fun x => decide (x.bookingId = bk.id)) with
        | some x => { bk with status :=
            if x.id = w.id then BStatus.confirmed else BStatus.lostAuction }
        | none => bk) := by
  induction L generalizing db with
  | nil => simp
  | cons x t ih =>
    rw [List.map_cons, List.nodup_cons] at hL
    rw [List.foldl_cons, ih _ hL.2]
    have hbk : (setBookingStatus db x.bookingId
        (if x.id = w.id then BStatus.confirmed else BStatus.lostAuction)).bookings
        = db.bookings.map (fun bk => if bk.id = x.bookingId then
            { bk with status := if x.id = w.id then BStatus.confirmed else BStatus.lostAuction }
          else bk) := rfl
    rw [hbk, List.map_map]
    apply List.map_congr_left
    intro bk _
    simp only [Function.comp]
    by_cases hx : bk.id = x.bookingId
    · have h1 : (x :: t).find? (fun y => decide (y.bookingId = bk.id)) = some x :=
        List.find?_cons_of_pos _ (by simp [hx])
      have h2 : t.find? (fun y => decide (y.bookingId = bk.id)) = none := by
        rw [List.find?_eq_none]
        intro y hy
        simp only [decide_eq_true_iff]
        intro hyb
        apply hL.1
        have hxy : y.bookingId = x.bookingId := by rw [hyb, hx]
        rw [← hxy]
        exact List.mem_map_of_mem Bid.bookingId hy
      rw [h1]
      rw [hx] at h2
      simp [hx, h2]
    · have h1 : (x :: t).find? (fun y => decide (y.bookingId = bk.id)) =
          t.find? (fun y => decide (y.bookingId = bk.id)) :=
        List.find?_cons_of_neg _ (by simp; exact fun hc => hx hc.symm)
      rw [h1]
      simp only [if_neg hx]

/-- Setting the final score preserves the score formula inputs. -/
theorem fscore_setF (b : Bid) : fscore { b with finalScore := some (fscore b) } = fscore b := rfl

/-- C1: closing an active auction that has at least one bid writes
`finalScore = offerPrice * (1 + trustSnapshot/100)` on every bid of the
auction, picks a bid `u` whose final score is maximal, marks the auction
`closed` with winner `u.userId`, sets the reservation linked to `u` to
`confirmed` and the reservation linked to every other bid of the auction
to `lost_auction`. -/
theorem C1_close_auction
    (db : DB) (aid : Nat) (a : Auction)
    (ha : getAuction db aid = some a) (hact : a.status = AStatus.active)
    (hNbid : (db.bids.map Bid.id).Nodup)
    (hNbk : ((db.bids.filter (fun b => decide (b.auctionId = aid))).map Bid.bookingId).Nodup)
    (hne : db.bids.filter (fun b => decide (b.auctionId = aid)) ≠ []) :
    ∃ db' u, close_auction db aid = Except.ok db' ∧
      u ∈ db.bids ∧ u.auctionId = aid ∧
      (∀ b' ∈ db'.bids, b'.auctionId = aid →
        b'.finalScore = some (b'.offerPrice * (1 + b'.trustSnapshot / 100))) ∧
      (∀ b ∈ db.bids, b.auctionId = aid → fscore b ≤ fscore u) ∧
      getAuction db' aid = some { a with
        status := AStatus.closed, winnerId := some u.userId } ∧
      (∀ bk' ∈ db'.bookings, bk'.id = u.bookingId → bk'.status = BStatus.confirmed) ∧
      (∀ b ∈ db.bids, b.auctionId = aid → b.id ≠ u.id →
        ∀ bk' ∈ db'.bookings, bk'.id = b.bookingId → bk'.status = BStatus.lostAuction) := by
  cases hb : get_auction_bids db aid with
  | nil =>
    exfalso
    apply hne
    have hperm : (db.bids.filter (fun b => decide (b.auctionId = aid))).Perm [] := by
      rw [← hb]
      exact (sortOfferDesc_perm _).symm
    exact List.Perm.eq_nil hperm
  | cons b0 rest =>
    have hperm : (b0 :: rest).Perm (db.bids.filter (fun b => decide (b.auctionId = aid))) := by
      rw [← hb]
      exact sortOfferDesc_perm _
    have hsub : ∀ {x : Bid}, x ∈ b0 :: rest → x ∈ db.bids ∧ x.auctionId = aid := by
      intro x hx
      have := hperm.mem_iff.mp hx
      have hmf := List.mem_filter.mp this
      exact ⟨hmf.1, by simpa using hmf.2⟩
    have hmem_bids : ∀ {x : Bid}, x ∈ db.bids → x.auctionId = aid → x ∈ b0 :: rest := by
      intro x hx hxa
      apply hperm.mem_iff.mpr
      exact List.mem_filter.mpr ⟨hx, by simpa using hxa⟩
    have hnodup_ids : ((b0 :: rest).map Bid.id).Nodup := by
      have h1 : ((db.bids.filter (fun b => decide (b.auctionId = aid))).map Bid.id).Nodup :=
        ((List.filter_sublist _).map Bid.id).nodup hNbid
      exact (hperm.map Bid.id).symm.nodup h1
    -- the database after the final-score fold
    have hdb1 : ((b0 :: rest).foldl (fun d bid => setBidFinal d bid.id (fscore bid)) db).bids
        = db.bids.map (fun b => if b.auctionId = aid
            then { b with finalScore := some (fscore b) } else b) := by
      rw [foldFinal_bids _ _ hnodup_ids]
      apply List.map_congr_left
      intro b hbmem
      by_cases hba : b.auctionId = aid
      · cases hfind : (b0 :: rest).find? (fun y => decide (y.id = b.id)) with
        | none =>
          exfalso
          exact absurd (by simp : (fun y => decide (y.id = b.id)) b = true)
            (List.find?_eq_none.mp hfind b (hmem_bids hbmem hba))
        | some x =>
          have hx1 : x ∈ b0 :: rest := List.mem_of_find?_eq_some hfind
          have hx2 : x.id = b.id := by simpa using List.find?_some hfind
          have hxb : x = b := key_unique Bid.id hNbid (hsub hx1).1 hbmem hx2
          rw [hxb, if_pos hba]
      · have hfind : (b0 :: rest).find? (fun y => decide (y.id = b.id)) = none := by
          rw [List.find?_eq_none]
          intro y hy
          simp only [decide_eq_true_iff]
          intro hyb
          have hyd : y = b := key_unique Bid.id hNbid (hsub hy).1 hbmem hyb
          exact hba (by rw [← hyd]; exact (hsub hy).2)
        rw [hfind, if_neg hba]
    -- the refreshed bid list
    have hbids1 : get_auction_bids ((b0 :: rest).foldl
        (fun d bid => setBidFinal d bid.id (fscore bid)) db) aid
        = (b0 :: rest).map (fun b => { b with finalScore := some (fscore b) }) := by
      show sortOfferDesc ((((b0 :: rest).foldl
        (fun d bid => setBidFinal d bid.id (fscore bid)) db).bids).filter
          (fun b => decide (b.auctionId = aid))) = _
      rw [hdb1]
      rw [filter_map_invariant _ (by
        intro x
        by_cases hx : x.auctionId = aid <;> simp [hx])]
      rw [show (db.bids.filter (fun b => decide (b.auctionId = aid))).map
            (fun b => if b.auctionId = aid then { b with finalScore := some (fscore b) } else b)
          = (db.bids.filter (fun b => decide (b.auctionId = aid))).map
            (fun b => { b with finalScore := some (fscore b) }) from
        List.map_congr_left (by
          intro x hx
          have := (List.mem_filter.mp hx).2
          simp only [decide_eq_true_iff] at this
          rw [if_pos this])]
      rw [sortOfferDesc_map (fun b => { b with finalScore := some (fscore b) })
        (fun b => rfl)]
      rw [show sortOfferDesc (db.bids.filter (fun b => decide (b.auctionId = aid)))
          = b0 :: rest from hb]
    have hbids1' : get_auction_bids ((b0 :: rest).foldl
        (fun d bid => setBidFinal d bid.id (fscore bid)) db) aid
        = { b0 with finalScore := some (fscore b0) }
          :: rest.map (fun b => { b with finalScore := some (fscore b) }) := by
      rw [hbids1, List.map_cons]
    have hrun : close_auction db aid = Except.ok
        ((({ b0 with finalScore := some (fscore b0) })
          :: rest.map (fun b => { b with finalScore := some (fscore b) })).foldl
          (fun d bid => setBookingStatus d bid.bookingId
            (if bid.id = (pickWinner { b0 with finalScore := some (fscore b0) }
                (rest.map (fun b => { b with finalScore := some (fscore b) }))).id
             then BStatus.confirmed else BStatus.lostAuction))
          (setAuctionClosed ((b0 :: rest).foldl
            (fun d bid => setBidFinal d bid.id (fscore bid)) db) aid
            (pickWinner { b0 with finalScore := some (fscore b0) }
              (rest.map (fun b => { b with finalScore := some (fscore b) }))).userId)) := by
      unfold close_auction
      rw [ha]
      simp only []
      rw [if_neg (by simp [hact])]
      rw [hb]
      simp only []
      rw [hbids1']
    have hwmem : pickWinner { b0 with finalScore := some (fscore b0) }
        (rest.map (fun b => { b with finalScore := some (fscore b) }))
        ∈ { b0 with finalScore := some (fscore b0) }
          :: rest.map (fun b => { b with finalScore := some (fscore b) }) :=
      pickWinner_mem _ _
    have hconsmap : { b0 with finalScore := some (fscore b0) }
        :: rest.map (fun b => { b with finalScore := some (fscore b) })
        = (b0 :: rest).map (fun b => { b with finalScore := some (fscore b) }) :=
      hbids1'.symm.trans hbids1
    obtain ⟨v, hvL, hveq⟩ : ∃ v ∈ b0 :: rest, { v with finalScore := some (fscore v) }
        = pickWinner { b0 with finalScore := some (fscore b0) }
          (rest.map (fun b => { b with finalScore := some (fscore b) })) := by
      have hmem := hwmem
      rw [hconsmap] at hmem
      exact List.mem_map.mp hmem
    have hnodup_bk1 : (({ b0 with finalScore := some (fscore b0) }
        :: rest.map (fun b => { b with finalScore := some (fscore b) })).map
          Bid.bookingId).Nodup := by
      rw [hconsmap, List.map_map]
      have heq : (b0 :: rest).map (Bid.bookingId ∘ fun b =>
          { b with finalScore := some (fscore b) }) = (b0 :: rest).map Bid.bookingId :=
        List.map_congr_left (fun x _ => rfl)
      rw [heq]
      exact ((hperm.map Bid.bookingId).symm).nodup hNbk
    have hbl : ((({ b0 with finalScore := some (fscore b0) })
        :: rest.map (fun b => { b with finalScore := some (fscore b) })).foldl
        (fun d bid => setBookingStatus d bid.bookingId
          (if bid.id = (pickWinner { b0 with finalScore := some (fscore b0) }
              (rest.map (fun b => { b with finalScore := some (fscore b) }))).id
           then BStatus.confirmed else BStatus.lostAuction))
        (setAuctionClosed ((b0 :: rest).foldl
          (fun d bid => setBidFinal d bid.id (fscore bid)) db) aid
          (pickWinner { b0 with finalScore := some (fscore b0) }
            (rest.map (fun b => { b with finalScore := some (fscore b) }))).userId)).bids
        = db.bids.map (fun b => if b.auctionId = aid
            then { b with finalScore := some (fscore b) } else b) := by
      rw [foldStatus_bids]
      exact hdb1
    have hchar : ((({ b0 with finalScore := some (fscore b0) })
        :: rest.map (fun b => { b with finalScore := some (fscore b) })).foldl
        (fun d bid => setBookingStatus d bid.bookingId
          (if bid.id = (pickWinner { b0 with finalScore := some (fscore b0) }
              (rest.map (fun b => { b with finalScore := some (fscore b) }))).id
           then BStatus.confirmed else BStatus.lostAuction))
        (setAuctionClosed ((b0 :: rest).foldl
          (fun d bid => setBidFinal d bid.id (fscore bid)) db) aid
          (pickWinner { b0 with finalScore := some (fscore b0) }
            (rest.map (fun b => { b with finalScore := some (fscore b) }))).userId)).bookings
        = db.bookings.map (fun bk =>
            match ({ b0 with finalScore := some (fscore b0) }
              :: rest.map (fun b => { b with finalScore := some (fscore b) })).find?
                (fun x => decide (x.bookingId = bk.id)) with
            | some x => { bk with status :=
                if x.id = (pickWinner { b0 with finalScore := some (fscore b0) }
                  (rest.map (fun b => { b with finalScore := some (fscore b) }))).id
                then BStatus.confirmed else BStatus.lostAuction }
            | none => bk) := by
      rw [foldStatus_bookings_char _ _ _ hnodup_bk1]
      rw [show (setAuctionClosed ((b0 :: rest).foldl
          (fun d bid => setBidFinal d bid.id (fscore bid)) db) aid
          (pickWinner { b0 with finalScore := some (fscore b0) }
            (rest.map (fun b => { b with finalScore := some (fscore b) }))).userId).bookings
        = ((b0 :: rest).foldl
          (fun d bid => setBidFinal d bid.id (fscore bid)) db).bookings from rfl]
      rw [foldFinal_bookings_eq]
    refine ⟨_, v, hrun, (hsub hvL).1, (hsub hvL).2, ?_, ?_, ?_, ?_, ?_⟩
    · intro b' hb' hba'
      rw [hbl] at hb'
      obtain ⟨b, hbmem, rfl⟩ := List.mem_map.mp hb'
      by_cases hba : b.auctionId = aid
      · simp only [if_pos hba]
        rfl
      · rw [if_neg hba] at hba'
        exact absurd hba' hba
    · intro b hbmem hba
      have hbin : { b with finalScore := some (fscore b) }
          ∈ { b0 with finalScore := some (fscore b0) }
            :: rest.map (fun b => { b with finalScore := some (fscore b) }) := by
        rw [hconsmap]
        exact List.mem_map_of_mem _ (hmem_bids hbmem hba)
      have hle := pickWinner_max _ _ _ hbin
      calc fscore b = scoreKey { b with finalScore := some (fscore b) } := rfl
        _ ≤ scoreKey (pickWinner { b0 with finalScore := some (fscore b0) }
            (rest.map (fun b => { b with finalScore := some (fscore b) }))) := hle
        _ = fscore v := by
            rw [← hveq]
            rfl
    · have haucts : ((({ b0 with finalScore := some (fscore b0) })
          :: rest.map (fun b => { b with finalScore := some (fscore b) })).foldl
          (fun d bid => setBookingStatus d bid.bookingId
            (if bid.id = (pickWinner { b0 with finalScore := some (fscore b0) }
                (rest.map (fun b => { b with finalScore := some (fscore b) }))).id
             then BStatus.confirmed else BStatus.lostAuction))
          (setAuctionClosed ((b0 :: rest).foldl
            (fun d bid => setBidFinal d bid.id (fscore bid)) db) aid
            (pickWinner { b0 with finalScore := some (fscore b0) }
              (rest.map (fun b => { b with finalScore := some (fscore b) }))).userId)).auctions
          = (setAuctionClosed ((b0 :: rest).foldl
            (fun d bid => setBidFinal d bid.id (fscore bid)) db) aid
            (pickWinner { b0 with finalScore := some (fscore b0) }
              (rest.map (fun b => { b with finalScore := some (fscore b) }))).userId).auctions :=
        foldStatus_auctions _ _ _
      have hga2 : getAuction ((({ b0 with finalScore := some (fscore b0) })
          :: rest.map (fun b => { b with finalScore := some (fscore b) })).foldl
          (fun d bid => setBookingStatus d bid.bookingId
            (if bid.id = (pickWinner { b0 with finalScore := some (fscore b0) }
                (rest.map (fun b => { b with finalScore := some (fscore b) }))).id
             then BStatus.confirmed else BStatus.lostAuction))
          (setAuctionClosed ((b0 :: rest).foldl
            (fun d bid => setBidFinal d bid.id (fscore bid)) db) aid
            (pickWinner { b0 with finalScore := some (fscore b0) }
              (rest.map (fun b => { b with finalScore := some (fscore b) }))).userId)) aid
          = getAuction (setAuctionClosed ((b0 :: rest).foldl
            (fun d bid => setBidFinal d bid.id (fscore bid)) db) aid
            (pickWinner { b0 with finalScore := some (fscore b0) }
              (rest.map (fun b => { b with finalScore := some (fscore b) }))).userId) aid := by
        unfold getAuction
        rw [haucts]
      rw [hga2, getAuction_setAuctionClosed]
      have hga1 : getAuction ((b0 :: rest).foldl
          (fun d bid => setBidFinal d bid.id (fscore bid)) db) aid = some a := by
        unfold getAuction
        rw [foldFinal_auctions]
        exact ha
      rw [hga1]
      simp only [Option.map_some']
      rw [if_pos (getAuction_id ha)]
      rw [← hveq]
    · intro bk' hbk' hid
      rw [hchar] at hbk'
      obtain ⟨bk, hbkmem, rfl⟩ := List.mem_map.mp hbk'
      revert hid
      cases hfind : ({ b0 with finalScore := some (fscore b0) }
          :: rest.map (fun b => { b with finalScore := some (fscore b) })).find?
            (fun x => decide (x.bookingId = bk.id)) with
      | none =>
        intro hid
        simp only [] at hid
        exfalso
        apply List.find?_eq_none.mp hfind _ hwmem
        simp only [decide_eq_true_iff]
        rw [hid, ← hveq]
      | some x =>
        intro hid
        simp only [] at hid ⊢
        have hx1 : x ∈ { b0 with finalScore := some (fscore b0) }
            :: rest.map (fun b => { b with finalScore := some (fscore b) }) :=
          List.mem_of_find?_eq_some hfind
        have hx2 : x.bookingId = bk.id := by simpa using List.find?_some hfind
        have hxw : x = pickWinner { b0 with finalScore := some (fscore b0) }
            (rest.map (fun b => { b with finalScore := some (fscore b) })) := by
          apply key_unique Bid.bookingId hnodup_bk1 hx1 hwmem
          rw [hx2, ← hveq]
          rw [show ({ v with finalScore := some (fscore v) } : Bid).bookingId
            = v.bookingId from rfl]
          rw [hid]
        rw [if_pos (by rw [hxw])]
    · intro b hbmem hba hneq bk' hbk' hid
      rw [hchar] at hbk'
      obtain ⟨bk, hbkmem, rfl⟩ := List.mem_map.mp hbk'
      have hbin : { b with finalScore := some (fscore b) }
          ∈ { b0 with finalScore := some (fscore b0) }
            :: rest.map (fun b => { b with finalScore := some (fscore b) }) := by
        rw [hconsmap]
        exact List.mem_map_of_mem _ (hmem_bids hbmem hba)
      revert hid
      cases hfind : ({ b0 with finalScore := some (fscore b0) }
          :: rest.map (fun b => { b with finalScore := some (fscore b) })).find?
            (fun x => decide (x.bookingId = bk.id)) with
      | none =>
        intro hid
        simp only [] at hid
        exfalso
        apply List.find?_eq_none.mp hfind _ hbin
        simp only [decide_eq_true_iff]
        rw [hid]
      | some x =>
        intro hid
        simp only [] at hid ⊢
        have hx1 : x ∈ { b0 with finalScore := some (fscore b0) }
            :: rest.map (fun b => { b with finalScore := some (fscore b) }) :=
          List.mem_of_find?_eq_some hfind
        have hx2 : x.bookingId = bk.id := by simpa using List.find?_some hfind
        have hxb : x = { b with finalScore := some (fscore b) } := by
          apply key_unique Bid.bookingId hnodup_bk1 hx1 hbin
          rw [hx2, hid]
        have hxid : x.id = b.id := by rw [hxb]
        rw [if_neg (by
          rw [hxid, ← hveq]
          exact hneq)]

/-- Witness for C1 at a concrete input. -/
theorem C1_witness :
    ∃ db' u, close_auction dbC1 5 = Except.ok db' ∧
      u ∈ dbC1.bids ∧ u.auctionId = 5 ∧
      (∀ b' ∈ db'.bids, b'.auctionId = 5 →
        b'.finalScore = some (b'.offerPrice * (1 + b'.trustSnapshot / 100))) ∧
      (∀ b ∈ dbC1.bids, b.auctionId = 5 → fscore b ≤ fscore u) ∧
      getAuction db' 5 = some { id := 5, carId := 9, startTime := 0, endTime := 10,
                                auctionEnd := 100, status := AStatus.closed,
                                winnerId := some u.userId } ∧
      (∀ bk' ∈ db'.bookings, bk'.id = u.bookingId → bk'.status = BStatus.confirmed) ∧
      (∀ b ∈ dbC1.bids, b.auctionId = 5 → b.id ≠ u.id →
        ∀ bk' ∈ db'.bookings, bk'.id = b.bookingId → bk'.status = BStatus.lostAuction) :=
  C1_close_auction dbC1 5
    { id := 5, carId := 9, startTime := 0, endTime := 10, auctionEnd := 100,
      status := AStatus.active, winnerId := none }
    (by decide) (by decide) (by decide) (by decide) (by decide)

end CarRental
